import Mathlib

/-!
# go_proxy: the request classifier and the header utilities of `main.go`

A shallow embedding of `main.go`.  Go strings are Lean strings, `http.Header`
(`map[string][]string`) is an association list whose order stands for the order in
which `range` visits the map, the `http.ResponseWriter` is a recorder of what the
handler wrote, and the process-wide logger is the list of the records printed so far.
Of a request's URL the model holds what the handler reads: the field `Scheme` and the
string that the method `String()` returns, which `net/url` computes outside the program.
The standard-library functions that the program calls (`strings.Join`,
`textproto.CanonicalMIMEHeaderKey`, the `http.Header` methods, `http.Error`,
`regexp.MatchString`, `net.SplitHostPort`) are embedded next to the
program's own functions; the upstream behind `client.Do` is a parameter.
-/

set_option autoImplicit false

namespace GoProxy

/-! ## Standard library: `strings` -/

namespace strings

/-- Go `strings.Join(elems, sep)`: the elements concatenated, `sep` between neighbours. -/
def Join (elems : List String) (sep : String) : String :=
  match elems with
  | [] => ""
  | e :: rest => rest.foldl (fun acc s => acc ++ sep ++ s) e

end strings

/-! ## Standard library: `net/textproto` canonical header keys -/

namespace textproto

/-- The punctuation bytes of an RFC 7230 token; the letters and digits are the rest. -/
def tokenPunct : List Char :=
  ['!', '#', '$', '%', '&', Char.ofNat 39, '*', '+', '-', '.', '^', '_', Char.ofNat 96, '|', '~']

/-- Go `validHeaderFieldByte`: is the byte allowed in a header field name. -/
def validHeaderFieldByte (c : Char) : Bool :=
  c.isAlphanum || tokenPunct.contains c

/-- The rewriting loop of Go `canonicalMIMEHeaderKey`: upper case for the first letter and
for a letter after a dash, lower case for every other letter. -/
def canonicalBytes : Bool → List Char → List Char
  | _, [] => []
  | upper, c :: cs =>
    let d := if upper && c.isLower then c.toUpper
             else if !upper && c.isUpper then c.toLower
             else c
    d :: canonicalBytes (d == '-') cs

/-- Go `textproto.CanonicalMIMEHeaderKey`: a key that holds a byte which is not allowed in
a field name (a space included) is returned unchanged, any other key is canonicalised. -/
def CanonicalMIMEHeaderKey (s : String) : String :=
  if s.data.all validHeaderFieldByte then String.mk (canonicalBytes true s.data) else s

end textproto

/-! ## Standard library: `http.Header` -/

/-- Go `http.Header`, a `map[string][]string`.  A Go map holds a key once; the order of the
list is the order in which a `range` loop visits the entries. -/
abbrev Header := List (String × List String)

namespace Header

/-- The keys of a Go map are distinct. -/
def WF (h : Header) : Prop := (h.map Prod.fst).Nodup

/-- The map index expression `h[key]` with its `ok` flag. -/
def lookup : Header → String → Option (List String)
  | [], _ => none
  | (k, vv) :: rest, key => if k = key then some vv else lookup rest key

/-- The map assignment `h[key] = vv`. -/
def assign : Header → String → List String → Header
  | [], key, vv => [(key, vv)]
  | (k, old) :: rest, key, vv =>
    if k = key then (k, vv) :: rest else (k, old) :: assign rest key vv

/-- The builtin `delete(h, key)`. -/
def delete (h : Header) (key : String) : Header :=
  h.filter (fun e => decide (e.1 ≠ key))

/-- Go `Header.Get`: the first value stored under the canonical form of `key`, or `""`. -/
def Get (h : Header) (key : String) : String :=
  match lookup h (textproto.CanonicalMIMEHeaderKey key) with
  | some (v :: _) => v
  | _ => ""

/-- Go `Header.Set`: the canonical form of `key` is given the single value `value`. -/
def Set (h : Header) (key value : String) : Header :=
  assign h (textproto.CanonicalMIMEHeaderKey key) [value]

/-- Go `Header.Add`: `value` is appended to the values of the canonical form of `key`. -/
def Add (h : Header) (key value : String) : Header :=
  let k := textproto.CanonicalMIMEHeaderKey key
  assign h k ((lookup h k).getD [] ++ [value])

/-- Go `Header.Del`: the canonical form of `key` is deleted. -/
def Del (h : Header) (key : String) : Header :=
  delete h (textproto.CanonicalMIMEHeaderKey key)

end Header

/-! ## `main.go`: the header utilities -/

/-- The variable `hopHeaders` of `main.go`. -/
def hopHeaders : List String :=
  ["Connection", "Keep-Alive", "Proxy-Authenticate", "Proxy-Authorization",
   "Te", "Trailers", "Transfer-Encoding", "Upgrade"]

/-- The function `copyHeader(dst, src)` of `main.go`; the result is the new `dst`. -/
def copyHeader (dst src : Header) : Header :=
  src.foldl (fun d kvv => kvv.2.foldl (fun d v => Header.Add d kvv.1 v) d) dst

/-- The function `delHopHeaders(header)` of `main.go`; the result is the new `header`. -/
def delHopHeaders (header : Header) : Header :=
  hopHeaders.foldl (fun hd h => Header.Del hd h) header

/-- The function `appendHostToXForwardHeader(header, host)` of `main.go`; the result is the
new `header`. -/
def appendHostToXForwardHeader (header : Header) (host : String) : Header :=
  let host :=
    match Header.lookup header "X-Forwarded-For" with
    | some prior => strings.Join prior ", " ++ ", " ++ host
    | none => host
  Header.Set header "X-Forwarded-For" host

/-! ## Standard library: `net/url` -/

namespace url

/-- Go `url.URL` as `ServeHTTP` reads it: the field `Scheme`, and `String`, the string that
the method `String()` returns for the URL.  The package `net/url` builds that string from
the fields of the URL, percent-escaping where it has to; the handler takes the result as
it is, for the log record and for the image pattern. -/
structure URL where
  Scheme : String
  String : String
  deriving DecidableEq

end url

/-! ## Standard library: `regexp` -/

namespace regexp

/-- The syntax of the regular expressions used: a character class is a predicate. -/
inductive Regexp where
  | never : Regexp
  | empty : Regexp
  | cls : (Char → Bool) → Regexp
  | cat : Regexp → Regexp → Regexp
  | alt : Regexp → Regexp → Regexp
  | star : Regexp → Regexp

namespace Regexp

/-- A literal string. -/
def lit (s : String) : Regexp :=
  s.data.foldr (fun c r => cat (cls (fun d => d == c)) r) empty

/-- The operator `?`. -/
def opt (r : Regexp) : Regexp := alt r empty

/-- Does the expression match the empty string. -/
def nullable : Regexp → Bool
  | never => false
  | empty => true
  | cls _ => false
  | cat a b => nullable a && nullable b
  | alt a b => nullable a || nullable b
  | star _ => true

/-- The derivative: what is left to match after reading `c`. -/
def deriv : Regexp → Char → Regexp
  | never, _ => never
  | empty, _ => never
  | cls p, c => if p c then empty else never
  | cat a b, c => if nullable a then alt (cat (deriv a c) b) (deriv b c) else cat (deriv a c) b
  | alt a b, c => alt (deriv a c) (deriv b c)
  | star a, c => cat (deriv a c) (star a)

/-- Does some prefix of the input match the expression. -/
def matchPrefix : Regexp → List Char → Bool
  | r, [] => nullable r
  | r, c :: cs => nullable r || matchPrefix (deriv r c) cs

/-- Does some substring of the input match the expression. -/
def search (r : Regexp) : List Char → Bool
  | [] => matchPrefix r []
  | c :: cs => matchPrefix r (c :: cs) || search r cs

/-- The language of an expression: the strings that it matches in full. -/
def Accepts : Regexp → List Char → Prop
  | never, _ => False
  | empty, w => w = []
  | cls p, w => ∃ c, p c = true ∧ w = [c]
  | cat a b, w => ∃ s t, w = s ++ t ∧ Accepts a s ∧ Accepts b t
  | alt a b, w => Accepts a w ∨ Accepts b w
  | star a, w => ∃ ws : List (List Char), w = ws.flatten ∧ ∀ x ∈ ws, Accepts a x

end Regexp

/-- Go `regexp.MatchString(pattern, s)` for a pattern that compiles: is there a match of
the pattern anywhere in `s` (the pattern is not anchored). -/
def MatchString (pattern : Regexp) (s : String) : Bool :=
  Regexp.search pattern s.data

/-- The Perl class `\w`, which is `[0-9A-Za-z_]`. -/
def isWord (c : Char) : Bool := c.isAlphanum || c == '_'

/-- The Perl class `\s`, which is `[\t\n\f\r ]`. -/
def isSpace (c : Char) : Bool :=
  c == '\t' || c == '\n' || c == Char.ofNat 12 || c == '\r' || c == ' '

end regexp

/-! ## Standard library: `net/http` -/

namespace http

def StatusOK : Nat := 200
def StatusBadRequest : Nat := 400
def StatusNotFound : Nat := 404
def StatusInternalServerError : Nat := 500

/-- What a handler has done to its `http.ResponseWriter`: the header map, the status code
written (`none` before the first `WriteHeader` or `Write`) and the body bytes written. -/
structure ResponseWriter where
  header : Header
  status : Option Nat
  body : String
  deriving DecidableEq

namespace ResponseWriter

/-- The writer that the server hands to the handler. -/
def fresh : ResponseWriter := { header := [], status := none, body := "" }

/-- Go `WriteHeader(code)`: the first call fixes the status code. -/
def WriteHeader (w : ResponseWriter) (code : Nat) : ResponseWriter :=
  match w.status with
  | some _ => w
  | none => { w with status := some code }

/-- Go `Write(p)`: an implicit `WriteHeader(200)` when no status was written, then the
bytes are appended to the body. -/
def Write (w : ResponseWriter) (p : String) : ResponseWriter :=
  let w := WriteHeader w StatusOK
  { w with body := w.body ++ p }

end ResponseWriter

/-- Go `http.Error(w, error, code)`: the content type headers, the status code, and
`fmt.Fprintln(w, error)`, which writes the message and a newline. -/
def Error (w : ResponseWriter) (error : String) (code : Nat) : ResponseWriter :=
  let h := Header.Set w.header "Content-Type" "text/plain; charset=utf-8"
  let h := Header.Set h "X-Content-Type-Options" "nosniff"
  let w := { w with header := h }
  let w := w.WriteHeader code
  w.Write (error ++ "\n")

/-- Go `http.Request`, with the fields that the handler reads. -/
structure Request where
  Method : String
  URL : url.URL
  Header : Header
  RemoteAddr : String
  deriving DecidableEq

end http

/-! ## `main.go`: the handler -/

/-- What the handler acts on: its response writer and the records of the logger. -/
structure State where
  wr : http.ResponseWriter
  log : List String
  deriving DecidableEq

namespace State

/-- The state in which the server calls the handler for a request; `log` holds the
records that were printed before. -/
def start (log : List String) : State := { wr := http.ResponseWriter.fresh, log := log }

/-- Go `log.Print` and `log.Println` of one string: one record is appended. -/
def logPrint (st : State) (record : String) : State :=
  { st with log := st.log ++ [record] }

end State

/-- The character class `[/|.|\w|\s|-]` of the pattern of `ServeHTTP`: a slash, a bar, a
dot, a word character, a white space character or a dash. -/
def imageClass (c : Char) : Bool :=
  c == '/' || c == '|' || c == '.' || c == '|' || regexp.isWord c || c == '|' ||
    regexp.isSpace c || c == '|' || c == '-'

/-- The pattern `(http(s?):)([/|.|\w|\s|-])*\.(?:jpg|gif|png)` of `ServeHTTP`. -/
def imagePattern : regexp.Regexp :=
  open regexp.Regexp in
  cat (cat (lit "http") (cat (opt (lit "s")) (lit ":")))
    (cat (star (cls imageClass))
      (cat (lit ".") (alt (lit "jpg") (alt (lit "gif") (lit "png")))))

/-- What the pattern of `ServeHTTP` finds in a string, said without the matcher: somewhere
in `u` stands `http:` or `https:`, then characters of the class `[/|.|\w|\s|-]` only, then
a dot and one of `jpg`, `gif`, `png`; what comes before and after is free. -/
def ContainsImageURL (u : String) : Prop :=
  ∃ pre sec mid ext post : String,
    u = pre ++ "http" ++ sec ++ ":" ++ mid ++ "." ++ ext ++ post ∧
    (sec = "" ∨ sec = "s") ∧
    (∀ c ∈ mid.data, imageClass c = true) ∧
    (ext = "jpg" ∨ ext = "gif" ∨ ext = "png")

/-- The string `headers` that the first loop of `ServeHTTP` builds. -/
def headersString (h : Header) : String :=
  h.foldl (fun headers kv => headers ++ "," ++ kv.1 ++ " : " ++ strings.Join kv.2 ",") ""

/-- The record of the first `log.Print` of `ServeHTTP`. -/
def requestRecord (req : http.Request) : String :=
  req.RemoteAddr ++ " " ++ req.Method ++ " " ++ req.URL.String ++ " Headers: "
    ++ headersString req.Header

/-- The condition of the authentication branch of `ServeHTTP`. -/
def hasAuthHeader (req : http.Request) : Bool :=
  decide (Header.Get req.Header "WWW-Authenticate" ≠ "") ||
  decide (Header.Get req.Header "Authorization" ≠ "") ||
  decide (Header.Get req.Header "WWW-Authenticate" ≠ "") ||
  decide (Header.Get req.Header "Proxy-Authorization" ≠ "")

/-- The method `(p *proxy) ServeHTTP(wr, req)` of `main.go`, up to its last reachable
statement, the unconditional `return` of the default branch.  The whole body, with the
statements after that `return`, is `proxy.ServeHTTP`. -/
def ServeHTTP (st : State) (req : http.Request) : State :=
  let st := st.logPrint (requestRecord req)
  if req.URL.Scheme ≠ "http" ∧ req.URL.Scheme ≠ "https" then
    let msg := "unsupported protocal scheme " ++ req.URL.Scheme
    let st := { st with wr := http.Error st.wr msg http.StatusBadRequest }
    st.logPrint msg
  else if hasAuthHeader req then
    let st := { st with wr := http.Error st.wr "" http.StatusNotFound }
    st.logPrint "found authentication header"
  else if req.Method = "HEAD" then
    let st := { st with wr := st.wr.WriteHeader http.StatusOK }
    st.logPrint "HEAD request - returning OK"
  else if req.Method = "CONNECT" then
    let st := { st with wr := http.Error st.wr "" http.StatusNotFound }
    st.logPrint "CONNECT request - returning 404"
  else if regexp.MatchString imagePattern req.URL.String then
    let st := { st with wr := st.wr.WriteHeader http.StatusOK }
    st.logPrint "Image request"
  else
    let st := { st with wr := st.wr.WriteHeader http.StatusOK }
    let emptyHtml := "<html></html>"
    let st := { st with wr := st.wr.Write emptyHtml }
    st.logPrint "Returning empty HTML"

/-- The handler run for one request on a fresh response writer and an empty log. -/
def serve (req : http.Request) : State := ServeHTTP (State.start []) req

/-! ## Standard library: `net.SplitHostPort` and the HTTP client -/

namespace net

/-- Go `last(s, b)`: the index of the last `b` in `s`, `none` for the index -1. -/
def last (s : List Char) (b : Char) : Option Nat :=
  (s.reverse.indexOf? b).map (fun i => s.length - 1 - i)

/-- Go `net.SplitHostPort`: the host and the port of `host:port` or `[host]:port`, `none`
when the function returns an error. -/
def SplitHostPort (hostport : String) : Option (String × String) :=
  let s := hostport.data
  match last s ':' with
  | none => none
  | some i =>
    if s.head? = some '[' then
      match s.indexOf? ']' with
      | none => none
      | some e =>
        if e + 1 = i then
          if (s.drop 1).contains '[' then none
          else if (s.drop (e + 1)).contains ']' then none
          else some (String.mk ((s.take e).drop 1), String.mk (s.drop (i + 1)))
        else none
    else
      let host := s.take i
      if host.contains ':' then none
      else if s.contains '[' then none
      else if s.contains ']' then none
      else some (String.mk host, String.mk (s.drop (i + 1)))

end net

namespace http

/-- Go `http.Response`, with the fields that the handler reads; `Body` is what reading
the body stream to its end yields. -/
structure Response where
  Status : String
  StatusCode : Nat
  Header : Header
  Body : String
  deriving DecidableEq

/-- What `client.Do(req)` returns: the response of the upstream, or the text of the
error.  The upstream is outside the program. -/
abbrev Client := Request → Except String Response

end http

/-! ## `main.go`: the whole body of `ServeHTTP` -/

/-- The process around one call of the handler: the state of the handler, the requests
sent to an upstream by `client.Do`, the number of response bodies closed, and the exit
code once `os.Exit` was called (`log.Fatal` calls `os.Exit(1)`). -/
structure Process where
  st : State
  outbound : List http.Request
  closed : Nat
  exitCode : Option Nat
  deriving DecidableEq

namespace Process

/-- The process in which the server calls the handler on a fresh response writer. -/
def start (log : List String) : Process :=
  { st := State.start log, outbound := [], closed := 0, exitCode := none }

/-- One record printed by the logger. -/
def logPrint (p : Process) (record : String) : Process :=
  { p with st := p.st.logPrint record }

/-- A call on the response writer. -/
def onWriter (p : Process) (f : http.ResponseWriter → http.ResponseWriter) : Process :=
  { p with st := { p.st with wr := f p.st.wr } }

end Process

/-- Where control is after a statement: it goes on to the next statement, or the
function is over, by `return` or because the process exited. -/
inductive Flow where
  | running : Process → Flow
  | done : Process → Flow

namespace Flow

/-- Sequencing: the next statement runs only when control reaches it. -/
def andThen (f : Flow) (next : Process → Flow) : Flow :=
  match f with
  | running p => next p
  | done p => done p

/-- The process when the function is over. -/
def result : Flow → Process
  | running p => p
  | done p => p

end Flow

/-- The method `(p *proxy) ServeHTTP(wr, req)` of `main.go`, every statement of it in
the order of the source: the classifier, from which each `return` leaves the function, and
after the `return` of the default branch the statements from `client := &http.Client{}`
to `io.Copy(wr, resp.Body)`, with `log.Fatal` as the exit of the process and the deferred
`resp.Body.Close()` at the end. -/
def proxy.ServeHTTP (client : http.Client) (p : Process) (req : http.Request) : Process :=
  Flow.result
    (Flow.andThen (Flow.running (p.logPrint (requestRecord req))) fun p =>
     Flow.andThen
      (if req.URL.Scheme ≠ "http" ∧ req.URL.Scheme ≠ "https" then
        let msg := "unsupported protocal scheme " ++ req.URL.Scheme
        let p := p.onWriter (fun w => http.Error w msg http.StatusBadRequest)
        Flow.done (p.logPrint msg)
      else Flow.running p) fun p =>
     Flow.andThen
      (if hasAuthHeader req then
        let p := p.onWriter (fun w => http.Error w "" http.StatusNotFound)
        Flow.done (p.logPrint "found authentication header")
      else Flow.running p) fun p =>
     Flow.andThen
      (if req.Method = "HEAD" then
        let p := p.onWriter (fun w => w.WriteHeader http.StatusOK)
        Flow.done (p.logPrint "HEAD request - returning OK")
      else Flow.running p) fun p =>
     Flow.andThen
      (if req.Method = "CONNECT" then
        let p := p.onWriter (fun w => http.Error w "" http.StatusNotFound)
        Flow.done (p.logPrint "CONNECT request - returning 404")
      else Flow.running p) fun p =>
     Flow.andThen
      (if regexp.MatchString imagePattern req.URL.String then
        let p := p.onWriter (fun w => w.WriteHeader http.StatusOK)
        Flow.done (p.logPrint "Image request")
      else Flow.running p) fun p =>
     Flow.andThen
      (let p := p.onWriter (fun w => w.WriteHeader http.StatusOK)
       let emptyHtml := "<html></html>"
       let p := p.onWriter (fun w => w.Write emptyHtml)
       Flow.done (p.logPrint "Returning empty HTML")) fun p =>
     let header := delHopHeaders req.Header
     let header :=
       match net.SplitHostPort req.RemoteAddr with
       | some (clientIP, _) => appendHostToXForwardHeader header clientIP
       | none => header
     let req := { req with Header := header }
     let p := { p with outbound := p.outbound ++ [req] }
     match client req with
     | Except.error err =>
       let p := p.onWriter (fun w => http.Error w "Server Error" http.StatusInternalServerError)
       let p := p.logPrint ("ServeHTTP:" ++ err)
       Flow.done { p with exitCode := some 1 }
     | Except.ok resp =>
       let p := p.logPrint (req.RemoteAddr ++ " " ++ " " ++ " " ++ resp.Status)
       let respHeader := delHopHeaders resp.Header
       let p := p.onWriter (fun w => { w with header := copyHeader w.header respHeader })
       let p := p.onWriter (fun w => w.WriteHeader resp.StatusCode)
       let p := p.onWriter (fun w => w.Write resp.Body)
       Flow.done { p with closed := p.closed + 1 })

/-! ## Concrete requests -/

/-- The request `GET HTTP://example.com/`: the scheme in upper case. -/
def reqUpperScheme : http.Request :=
  { Method := "GET",
    URL := { Scheme := "HTTP", String := "HTTP://example.com/" },
    Header := [], RemoteAddr := "10.0.0.1:4000" }

/-- The request `GET ftp://example.com/` with an `Authorization` header. -/
def reqFtpAuth : http.Request :=
  { Method := "GET",
    URL := { Scheme := "ftp", String := "ftp://example.com/" },
    Header := [("Authorization", ["Basic c2VjcmV0"])], RemoteAddr := "10.0.0.1:4000" }

/-- The request `GET http://example.com/` with an `Authorization` header. -/
def reqAuth : http.Request :=
  { Method := "GET",
    URL := { Scheme := "http", String := "http://example.com/" },
    Header := [("Authorization", ["Basic c2VjcmV0"])], RemoteAddr := "10.0.0.1:4000" }

/-- The request `GET http://example.com/` whose `Authorization` values are an empty
string and then a credential. -/
def reqAuthSecond : http.Request :=
  { Method := "GET",
    URL := { Scheme := "http", String := "http://example.com/" },
    Header := [("Authorization", ["", "Basic c2VjcmV0"])], RemoteAddr := "10.0.0.1:4000" }

/-- The request `HEAD http://example.com/` whose `Authorization` values are an empty
string and then a credential. -/
def reqAuthSecondHead : http.Request :=
  { Method := "HEAD",
    URL := { Scheme := "http", String := "http://example.com/" },
    Header := [("Authorization", ["", "Basic c2VjcmV0"])], RemoteAddr := "10.0.0.1:4000" }

/-- The request `HEAD http://example.com/a.png` with an `Authorization` header. -/
def reqAuthHeadImage : http.Request :=
  { Method := "HEAD",
    URL := { Scheme := "http", String := "http://example.com/a.png" },
    Header := [("Authorization", ["Basic c2VjcmV0"])], RemoteAddr := "10.0.0.1:4000" }

/-- The request `GET http://example.com/img/a.png?x=1`. -/
def reqPng : http.Request :=
  { Method := "GET",
    URL := { Scheme := "http", String := "http://example.com/img/a.png?x=1" },
    Header := [], RemoteAddr := "10.0.0.1:4000" }

/-- The request `GET http://example.com:8080/a.png`: a host with a port. -/
def reqPngPort : http.Request :=
  { Method := "GET",
    URL := { Scheme := "http", String := "http://example.com:8080/a.png" },
    Header := [], RemoteAddr := "10.0.0.1:4000" }

/-- The request `GET http://example.com/a.pngx`. -/
def reqPngx : http.Request :=
  { Method := "GET",
    URL := { Scheme := "http", String := "http://example.com/a.pngx" },
    Header := [], RemoteAddr := "10.0.0.1:4000" }

/-- The request `GET http://example.com/a.png/index`: the extension in the middle. -/
def reqPngMid : http.Request :=
  { Method := "GET",
    URL := { Scheme := "http", String := "http://example.com/a.png/index" },
    Header := [], RemoteAddr := "10.0.0.1:4000" }

/-- The request `GET http://example.com/index.html`. -/
def reqPlain : http.Request :=
  { Method := "GET",
    URL := { Scheme := "http", String := "http://example.com/index.html" },
    Header := [], RemoteAddr := "10.0.0.1:4000" }

/-- The request `HEAD https://example.com/index.html`. -/
def reqHead : http.Request :=
  { Method := "HEAD",
    URL := { Scheme := "https", String := "https://example.com/index.html" },
    Header := [], RemoteAddr := "10.0.0.1:4000" }

/-- The request `CONNECT http://example.com:443`. -/
def reqConnect : http.Request :=
  { Method := "CONNECT",
    URL := { Scheme := "http", String := "http://example.com:443" },
    Header := [], RemoteAddr := "10.0.0.1:4000" }

/-- A header map with `X-Forwarded-For: 1.2.3.4` and one more entry. -/
def hdrPrior : Header := [("Accept", ["*/*"]), ("X-Forwarded-For", ["1.2.3.4"])]

/-- A header map in which the key `X-Forwarded-For` is present with no value. -/
def hdrEmptyPrior : Header := [("X-Forwarded-For", [])]

/-! ## Notions used to state the properties of the header utilities -/

namespace Header

/-- The keys of the map, in the order of `range`. -/
def keys (h : Header) : List String := h.map Prod.fst

/-- Every key of the map is in canonical MIME form, as in a map that the `net/http`
parser filled or that was filled through `Set` and `Add`. -/
def Canonical (h : Header) : Prop :=
  ∀ k ∈ keys h, textproto.CanonicalMIMEHeaderKey k = k

instance (h : Header) : Decidable (WF h) := by
  unfold WF
  infer_instance

instance (h : Header) : Decidable (Canonical h) := by
  unfold Canonical
  infer_instance

end Header

/-- Equality of two strings ignoring the case of the ASCII letters. -/
def strings.EqualFold (s t : String) : Bool :=
  s.data.map Char.toLower == t.data.map Char.toLower

/-- The names of the HopHeaderSet as the specification lists them. -/
def hopHeaderSet : List String :=
  ["Connection", "Keep-Alive", "Proxy-Authenticate", "Proxy-Authorization",
   "TE", "Trailers", "Transfer-Encoding", "Upgrade"]

/-- The upper case ASCII letters. -/
def textproto.upperLetters : List Char :=
  (List.range 26).map (fun i => Char.ofNat (65 + i))

/-- A header map that holds a hop-by-hop header under a key in lower case. -/
def hdrLowerHop : Header := [("connection", ["close"]), ("Accept", ["*/*"])]

/-- A header map with two hop-by-hop headers and two other headers. -/
def hdrHop : Header :=
  [("Connection", ["close"]), ("Accept", ["text/html", "*/*"]), ("Te", ["trailers"]),
   ("Cookie", ["a=1"])]

/-- The map index expression `h[key]` without the `ok` flag: no values for a missing key. -/
def Header.values (h : Header) (key : String) : List String :=
  (Header.lookup h key).getD []

/-- A source map whose only key is in lower case. -/
def hdrLowerSrc : Header := [("x-trace", ["a"])]

/-- A destination map that holds the canonical form of the key of `hdrLowerSrc`. -/
def hdrTraceDst : Header := [("X-Trace", ["old"])]

/-- A source map with canonical keys; one value occurs twice. -/
def hdrSrc : Header := [("Vary", ["Accept", "Accept"]), ("Set-Cookie", ["a=1", "b=2"])]

/-- A destination map that shares the key `Vary` with `hdrSrc`. -/
def hdrDst : Header := [("Date", ["today"]), ("Vary", ["Origin"])]

/-- A header map without the key `X-Forwarded-For`. -/
def hdrNoForward : Header := [("Accept", ["*/*"])]

/-- The request `GET http://example.com/index.html` of another client, with a cookie. -/
def reqPlainOther : http.Request :=
  { Method := "GET",
    URL := { Scheme := "http", String := "http://example.com/index.html" },
    Header := [("Cookie", ["a=1"])], RemoteAddr := "192.168.7.7:5555" }

/-! ## The regular expression matcher against the language of an expression -/

namespace regexp.Regexp

theorem nullable_iff (r : Regexp) : nullable r = true ↔ Accepts r [] := by
  induction r with
  | never => simp [nullable, Accepts]
  | empty => simp [nullable, Accepts]
  | cls p => simp [nullable, Accepts]
  | cat a b iha ihb =>
    simp only [nullable, Accepts, Bool.and_eq_true, iha, ihb]
    constructor
    · rintro ⟨ha, hb⟩
      exact ⟨[], [], rfl, ha, hb⟩
    · rintro ⟨s, t, hst, ha, hb⟩
      have h := List.append_eq_nil.1 hst.symm
      rw [h.1] at ha
      rw [h.2] at hb
      exact ⟨ha, hb⟩
  | alt a b iha ihb => simp [nullable, Accepts, iha, ihb]
  | star a _ =>
    simp only [nullable, Accepts, true_iff]
    exact ⟨[], rfl, by simp⟩

theorem accepts_star_cons (a : Regexp) (c : Char) (w : List Char)
    (ih : ∀ s, Accepts (deriv a c) s ↔ Accepts a (c :: s)) :
    Accepts (star a) (c :: w) ↔
      ∃ s t, w = s ++ t ∧ Accepts (deriv a c) s ∧ Accepts (star a) t := by
  constructor
  · rintro ⟨ws, hws, hall⟩
    induction ws with
    | nil => simp at hws
    | cons x ws ihws =>
      cases x with
      | nil =>
        exact ihws (by simpa using hws) (fun y hy => hall y (List.mem_cons_of_mem _ hy))
      | cons d x =>
        simp only [List.flatten, List.cons_append, List.cons.injEq] at hws
        refine ⟨x, ws.flatten, hws.2, ?_, ws, rfl, fun y hy => hall y (List.mem_cons_of_mem _ hy)⟩
        rw [ih, hws.1]
        exact hall (d :: x) (List.mem_cons_self _ _)
  · rintro ⟨s, t, hw, hs, ws, ht, hall⟩
    refine ⟨(c :: s) :: ws, by simp [hw, ht], ?_⟩
    intro y hy
    rcases List.mem_cons.1 hy with rfl | hy
    · exact (ih s).1 hs
    · exact hall y hy

theorem deriv_iff (r : Regexp) (c : Char) :
    ∀ s : List Char, Accepts (deriv r c) s ↔ Accepts r (c :: s) := by
  induction r with
  | never => intro s; simp [deriv, Accepts]
  | empty => intro s; simp [deriv, Accepts]
  | cls p =>
    intro s
    by_cases hp : p c = true
    · simp only [deriv, hp, if_true, Accepts]
      constructor
      · rintro rfl
        exact ⟨c, hp, rfl⟩
      · rintro ⟨d, _, hd⟩
        exact (List.cons.inj hd).2
    · simp only [deriv, hp, Accepts, false_iff]
      rintro ⟨d, hd, heq⟩
      rw [(List.cons.inj heq).1] at hp
      exact hp hd
  | cat a b iha ihb =>
    intro s
    have hcons : Accepts (cat a b) (c :: s) ↔
        (∃ u t, s = u ++ t ∧ Accepts a (c :: u) ∧ Accepts b t) ∨
          (Accepts a [] ∧ Accepts b (c :: s)) := by
      simp only [Accepts]
      constructor
      · rintro ⟨u, t, hut, ha, hb⟩
        cases u with
        | nil =>
          right
          rw [List.nil_append] at hut
          rw [hut]
          exact ⟨ha, hb⟩
        | cons d u =>
          left
          rw [List.cons_append] at hut
          have h := List.cons.inj hut
          rw [← h.1] at ha
          exact ⟨u, t, h.2, ha, hb⟩
      · rintro (⟨u, t, hut, ha, hb⟩ | ⟨ha, hb⟩)
        · exact ⟨c :: u, t, by simp [hut], ha, hb⟩
        · exact ⟨[], c :: s, rfl, ha, hb⟩
    rw [hcons]
    by_cases hn : nullable a = true
    · simp only [deriv, hn, if_true, Accepts, iha, ihb]
      have hn2 := (nullable_iff a).1 hn
      constructor
      · rintro (h | h)
        · exact Or.inl h
        · exact Or.inr ⟨hn2, h⟩
      · rintro (h | h)
        · exact Or.inl h
        · exact Or.inr h.2
    · simp only [deriv, hn, Accepts, iha]
      have hn2 : ¬ Accepts a [] := fun h => hn ((nullable_iff a).2 h)
      constructor
      · intro h
        exact Or.inl h
      · rintro (h | h)
        · exact h
        · exact absurd h.1 hn2
  | alt a b iha ihb => intro s; simp [deriv, Accepts, iha, ihb]
  | star a iha =>
    intro s
    rw [accepts_star_cons a c s iha]
    simp only [deriv, Accepts]

theorem matchPrefix_iff (r : Regexp) (w : List Char) :
    matchPrefix r w = true ↔ ∃ m t, w = m ++ t ∧ Accepts r m := by
  induction w generalizing r with
  | nil =>
    simp only [matchPrefix, nullable_iff]
    constructor
    · intro h
      exact ⟨[], [], rfl, h⟩
    · rintro ⟨m, t, hmt, hm⟩
      rw [(List.append_eq_nil.1 hmt.symm).1] at hm
      exact hm
  | cons c w ih =>
    simp only [matchPrefix, Bool.or_eq_true, nullable_iff, ih]
    constructor
    · rintro (h | ⟨m, t, hmt, hm⟩)
      · exact ⟨[], c :: w, rfl, h⟩
      · exact ⟨c :: m, t, by simp [hmt], (deriv_iff r c m).1 hm⟩
    · rintro ⟨m, t, hmt, hm⟩
      cases m with
      | nil => exact Or.inl hm
      | cons d m =>
        rw [List.cons_append] at hmt
        have h := List.cons.inj hmt
        rw [← h.1] at hm
        exact Or.inr ⟨m, t, h.2, (deriv_iff r c m).2 hm⟩

theorem search_iff (r : Regexp) (w : List Char) :
    search r w = true ↔ ∃ pre m post, w = pre ++ m ++ post ∧ Accepts r m := by
  induction w with
  | nil =>
    simp only [search, matchPrefix_iff]
    constructor
    · rintro ⟨m, t, hmt, hm⟩
      exact ⟨[], m, t, by simpa using hmt, hm⟩
    · rintro ⟨pre, m, post, hw, hm⟩
      have h := List.append_eq_nil.1 hw.symm
      have h2 := List.append_eq_nil.1 h.1
      exact ⟨m, post, by simp [h.2, h2.2], hm⟩
  | cons c w ih =>
    simp only [search, Bool.or_eq_true, matchPrefix_iff, ih]
    constructor
    · rintro (⟨m, t, hmt, hm⟩ | ⟨pre, m, post, hw, hm⟩)
      · exact ⟨[], m, t, by simpa using hmt, hm⟩
      · exact ⟨c :: pre, m, post, by simp [hw], hm⟩
    · rintro ⟨pre, m, post, hw, hm⟩
      cases pre with
      | nil => exact Or.inl ⟨m, post, by simpa using hw, hm⟩
      | cons d pre =>
        simp only [List.cons_append, List.cons.injEq] at hw
        exact Or.inr ⟨pre, m, post, hw.2, hm⟩

theorem accepts_cat (a b : Regexp) (w : List Char) :
    Accepts (cat a b) w ↔ ∃ s t, w = s ++ t ∧ Accepts a s ∧ Accepts b t := Iff.rfl

theorem accepts_alt (a b : Regexp) (w : List Char) :
    Accepts (alt a b) w ↔ Accepts a w ∨ Accepts b w := Iff.rfl

theorem accepts_chars (cs m : List Char) :
    Accepts (cs.foldr (fun c r => cat (cls (fun d => d == c)) r) empty) m ↔ m = cs := by
  induction cs generalizing m with
  | nil => simp [Accepts]
  | cons c cs ih =>
    simp only [List.foldr_cons, Accepts, ih, beq_iff_eq]
    constructor
    · rintro ⟨s, t, rfl, ⟨d, rfl, rfl⟩, rfl⟩
      rfl
    · rintro rfl
      exact ⟨[c], cs, rfl, ⟨c, rfl, rfl⟩, rfl⟩

theorem accepts_lit (s : String) (m : List Char) : Accepts (lit s) m ↔ m = s.data :=
  accepts_chars s.data m

theorem accepts_opt (r : Regexp) (m : List Char) :
    Accepts (opt r) m ↔ Accepts r m ∨ m = [] := by
  simp [opt, Accepts]

theorem accepts_star_cls (p : Char → Bool) (m : List Char) :
    Accepts (star (cls p)) m ↔ ∀ c ∈ m, p c = true := by
  simp only [Accepts]
  constructor
  · rintro ⟨ws, rfl, hall⟩ c hc
    obtain ⟨x, hx, hcx⟩ := List.mem_flatten.1 hc
    obtain ⟨d, hd, rfl⟩ := hall x hx
    rw [List.mem_singleton.1 hcx]
    exact hd
  · intro h
    refine ⟨m.map (fun c => [c]), ?_, ?_⟩
    · clear h
      induction m with
      | nil => rfl
      | cons c m ih => simp only [List.map_cons, List.flatten, List.singleton_append]; rw [← ih]
    · intro x hx
      obtain ⟨c, hc, rfl⟩ := List.mem_map.1 hx
      exact ⟨c, h c hc, rfl⟩

end regexp.Regexp

/-! ## The image pattern -/

theorem accepts_imagePattern (m : List Char) :
    regexp.Regexp.Accepts imagePattern m ↔
      ∃ sec mid ext : List Char,
        m = "http".data ++ sec ++ ":".data ++ mid ++ ".".data ++ ext ∧
        (sec = [] ∨ sec = "s".data) ∧ (∀ c ∈ mid, imageClass c = true) ∧
        (ext = "jpg".data ∨ ext = "gif".data ∨ ext = "png".data) := by
  simp only [imagePattern, regexp.Regexp.accepts_cat, regexp.Regexp.accepts_alt,
    regexp.Regexp.accepts_lit, regexp.Regexp.accepts_opt, regexp.Regexp.accepts_star_cls]
  constructor
  · rintro ⟨s1, t1, rfl, ⟨s2, t2, rfl, rfl, s3, t3, rfl, hsec, rfl⟩, s4, t4, rfl, hmid,
      s5, t5, rfl, rfl, hext⟩
    refine ⟨s3, s4, t5, by simp, hsec.symm, hmid, hext⟩
  · rintro ⟨sec, mid, ext, rfl, hsec, hmid, hext⟩
    exact ⟨"http".data ++ sec ++ ":".data, mid ++ ".".data ++ ext, by simp,
      ⟨"http".data, sec ++ ":".data, by simp, rfl, sec, ":".data, rfl, hsec.symm, rfl⟩,
      mid, ".".data ++ ext, by simp, hmid, ".".data, ext, rfl, rfl, hext⟩

/-- The matcher finds the image pattern in a string exactly when the string contains an
image URL in the sense of `ContainsImageURL`. -/
theorem matchString_imagePattern_iff (u : String) :
    regexp.MatchString imagePattern u = true ↔ ContainsImageURL u := by
  simp only [regexp.MatchString, regexp.Regexp.search_iff, accepts_imagePattern,
    ContainsImageURL]
  constructor
  · rintro ⟨pre, m, post, hu, sec, mid, ext, rfl, hsec, hmid, hext⟩
    refine ⟨String.mk pre, String.mk sec, String.mk mid, String.mk ext, String.mk post,
      ?_, ?_, hmid, ?_⟩
    · apply String.ext
      simp [hu]
    · rcases hsec with h | h
      · exact Or.inl (String.ext h)
      · exact Or.inr (String.ext h)
    · rcases hext with h | h | h
      · exact Or.inl (String.ext h)
      · exact Or.inr (Or.inl (String.ext h))
      · exact Or.inr (Or.inr (String.ext h))
  · rintro ⟨pre, sec, mid, ext, post, rfl, hsec, hmid, hext⟩
    refine ⟨pre.data, _, post.data, ?_, sec.data, mid.data, ext.data, rfl, ?_, hmid, ?_⟩
    · simp
    · rcases hsec with h | h
      · exact Or.inl (by rw [h])
      · exact Or.inr (by rw [h])
    · rcases hext with h | h | h
      · exact Or.inl (by rw [h])
      · exact Or.inr (Or.inl (by rw [h]))
      · exact Or.inr (Or.inr (by rw [h]))

/-! ## The response writer -/

theorem error_fresh (error : String) (code : Nat) :
    (http.Error http.ResponseWriter.fresh error code).status = some code ∧
      (http.Error http.ResponseWriter.fresh error code).body = error ++ "\n" := by
  constructor
  · rfl
  · show "" ++ (error ++ "\n") = error ++ "\n"
    apply String.ext
    simp

/-! ## The branches of `ServeHTTP` -/

theorem serveHTTP_scheme (log : List String) (req : http.Request)
    (h1 : req.URL.Scheme ≠ "http") (h2 : req.URL.Scheme ≠ "https") :
    ServeHTTP (State.start log) req =
      { wr := http.Error http.ResponseWriter.fresh
          ("unsupported protocal scheme " ++ req.URL.Scheme) http.StatusBadRequest,
        log := log ++ [requestRecord req] ++ ["unsupported protocal scheme " ++ req.URL.Scheme] } := by
  simp [ServeHTTP, State.start, State.logPrint, h1, h2]

theorem hasAuthHeader_of_get (req : http.Request)
    (h : Header.Get req.Header "Authorization" ≠ "" ∨
      Header.Get req.Header "WWW-Authenticate" ≠ "" ∨
      Header.Get req.Header "Proxy-Authorization" ≠ "") :
    hasAuthHeader req = true := by
  simp only [hasAuthHeader, Bool.or_eq_true, decide_eq_true_eq]
  tauto

/-- A request without a key `Www-Authenticate`, `Authorization` or `Proxy-Authorization`
does not take the authentication branch. -/
theorem hasAuthHeader_of_absent (req : http.Request)
    (h1 : Header.lookup req.Header "Www-Authenticate" = none)
    (h2 : Header.lookup req.Header "Authorization" = none)
    (h3 : Header.lookup req.Header "Proxy-Authorization" = none) :
    hasAuthHeader req = false := by
  have c1 : textproto.CanonicalMIMEHeaderKey "WWW-Authenticate" = "Www-Authenticate" := by
    decide
  have c2 : textproto.CanonicalMIMEHeaderKey "Authorization" = "Authorization" := by decide
  have c3 : textproto.CanonicalMIMEHeaderKey "Proxy-Authorization" = "Proxy-Authorization" := by
    decide
  simp [hasAuthHeader, Header.Get, c1, c2, c3, h1, h2, h3]

theorem serveHTTP_auth (log : List String) (req : http.Request)
    (hs : req.URL.Scheme = "http" ∨ req.URL.Scheme = "https")
    (ha : hasAuthHeader req = true) :
    ServeHTTP (State.start log) req =
      { wr := http.Error http.ResponseWriter.fresh "" http.StatusNotFound,
        log := log ++ [requestRecord req] ++ ["found authentication header"] } := by
  rcases hs with hs | hs <;> simp [ServeHTTP, State.start, State.logPrint, hs, ha]

theorem serveHTTP_head (log : List String) (req : http.Request)
    (hs : req.URL.Scheme = "http" ∨ req.URL.Scheme = "https")
    (ha : hasAuthHeader req = false) (hm : req.Method = "HEAD") :
    ServeHTTP (State.start log) req =
      { wr := http.ResponseWriter.fresh.WriteHeader http.StatusOK,
        log := log ++ [requestRecord req] ++ ["HEAD request - returning OK"] } := by
  rcases hs with hs | hs <;> simp [ServeHTTP, State.start, State.logPrint, hs, ha, hm]

theorem serveHTTP_connect (log : List String) (req : http.Request)
    (hs : req.URL.Scheme = "http" ∨ req.URL.Scheme = "https")
    (ha : hasAuthHeader req = false) (hm : req.Method = "CONNECT") :
    ServeHTTP (State.start log) req =
      { wr := http.Error http.ResponseWriter.fresh "" http.StatusNotFound,
        log := log ++ [requestRecord req] ++ ["CONNECT request - returning 404"] } := by
  rcases hs with hs | hs <;> simp [ServeHTTP, State.start, State.logPrint, hs, ha, hm]

theorem serveHTTP_image (log : List String) (req : http.Request)
    (hs : req.URL.Scheme = "http" ∨ req.URL.Scheme = "https")
    (ha : hasAuthHeader req = false) (hh : req.Method ≠ "HEAD") (hc : req.Method ≠ "CONNECT")
    (hi : regexp.MatchString imagePattern req.URL.String = true) :
    ServeHTTP (State.start log) req =
      { wr := http.ResponseWriter.fresh.WriteHeader http.StatusOK,
        log := log ++ [requestRecord req] ++ ["Image request"] } := by
  rcases hs with hs | hs <;> simp [ServeHTTP, State.start, State.logPrint, hs, ha, hh, hc, hi]

theorem serveHTTP_default (log : List String) (req : http.Request)
    (hs : req.URL.Scheme = "http" ∨ req.URL.Scheme = "https")
    (ha : hasAuthHeader req = false) (hh : req.Method ≠ "HEAD") (hc : req.Method ≠ "CONNECT")
    (hi : regexp.MatchString imagePattern req.URL.String = false) :
    ServeHTTP (State.start log) req =
      { wr := (http.ResponseWriter.fresh.WriteHeader http.StatusOK).Write "<html></html>",
        log := log ++ [requestRecord req] ++ ["Returning empty HTML"] } := by
  rcases hs with hs | hs <;> simp [ServeHTTP, State.start, State.logPrint, hs, ha, hh, hc, hi]

theorem drop_records (log : List String) (a b : String) :
    (log ++ [a] ++ [b]).drop (log.length + 1) = [b] := by
  rw [List.drop_append_eq_append_drop]
  simp

theorem get_ne_http : "GET" ≠ "HEAD" ∧ "GET" ≠ "CONNECT" := by decide

/-- The record of the first `log.Print`, written out: remote address, method, URL string
and, after ` Headers: `, for each header a comma, the key, ` : ` and the values joined by
commas. -/
theorem requestRecord_eq (req : http.Request) :
    requestRecord req =
      req.RemoteAddr ++ " " ++ req.Method ++ " " ++ req.URL.String ++ " Headers: " ++
        req.Header.foldl
          (fun headers kv => headers ++ "," ++ kv.1 ++ " : " ++ strings.Join kv.2 ",") "" :=
  rfl

/-- The condition of the authentication branch, written out. -/
theorem hasAuthHeader_iff (req : http.Request) :
    hasAuthHeader req = true ↔
      (Header.Get req.Header "WWW-Authenticate" ≠ "" ∨
        Header.Get req.Header "Authorization" ≠ "" ∨
        Header.Get req.Header "Proxy-Authorization" ≠ "") := by
  simp only [hasAuthHeader, Bool.or_eq_true, decide_eq_true_eq]
  tauto

/-! ## The claims on the classifier -/

/-- C1: a request whose URL scheme is neither `http` nor `https` (the empty scheme and
`HTTP` included), whatever its method and headers, is answered with status 400, and the
body, which is the message `unsupported protocal scheme ` followed by the scheme and a
newline, contains the scheme string. -/
theorem serveHTTP_rejects_unsupported_scheme (log : List String) (req : http.Request)
    (h1 : req.URL.Scheme ≠ "http") (h2 : req.URL.Scheme ≠ "https") :
    (ServeHTTP (State.start log) req).wr.status = some 400 ∧
    (ServeHTTP (State.start log) req).wr.body =
      "unsupported protocal scheme " ++ req.URL.Scheme ++ "\n" ∧
    req.URL.Scheme.data <:+: (ServeHTTP (State.start log) req).wr.body.data := by
  rw [serveHTTP_scheme log req h1 h2]
  refine ⟨rfl, (error_fresh _ _).2, ?_⟩
  show _ <:+: (http.Error _ _ _).body.data
  rw [(error_fresh _ _).2]
  exact ⟨"unsupported protocal scheme ".data, "\n".data, by simp⟩

theorem serveHTTP_rejects_unsupported_scheme_witness :
    (reqUpperScheme.URL.Scheme ≠ "http" ∧ reqUpperScheme.URL.Scheme ≠ "https") ∧
    ((ServeHTTP (State.start []) reqUpperScheme).wr.status = some 400 ∧
     (ServeHTTP (State.start []) reqUpperScheme).wr.body =
       "unsupported protocal scheme " ++ reqUpperScheme.URL.Scheme ++ "\n" ∧
     reqUpperScheme.URL.Scheme.data <:+:
       (ServeHTTP (State.start []) reqUpperScheme).wr.body.data) :=
  ⟨by decide, serveHTTP_rejects_unsupported_scheme [] reqUpperScheme (by decide) (by decide)⟩

/-- C2, as stated, fails in three ways.  A request with the scheme `ftp` and an
`Authorization` header is answered 400, not 404.  A request whose `Authorization` values
are `""` and then a credential is answered 200 with the HTML body.  And where the
authentication branch is taken the body is a newline, not empty. -/
theorem serveHTTP_auth_counterexample :
    (Header.Get reqFtpAuth.Header "Authorization" ≠ "" ∧
      (serve reqFtpAuth).wr.status = some 400) ∧
    ("Basic c2VjcmV0" ∈ (Header.lookup reqAuthSecond.Header "Authorization").getD [] ∧
      (serve reqAuthSecond).wr.status = some 200 ∧
      (serve reqAuthSecond).wr.body = "<html></html>") ∧
    (Header.Get reqAuth.Header "Authorization" ≠ "" ∧
      (serve reqAuth).wr.status = some 404 ∧
      (serve reqAuth).wr.body = "\n" ∧ (serve reqAuth).wr.body ≠ "") := by
  decide

/-- C2, amended: a request with scheme `http` or `https` whose first value under
`Authorization`, `WWW-Authenticate` or `Proxy-Authorization` (as `Header.Get` reads it) is
not empty is answered with status 404 and a body that is exactly one newline, whatever
its method, host, path and query. -/
theorem serveHTTP_auth_404 (log : List String) (req : http.Request)
    (hs : req.URL.Scheme = "http" ∨ req.URL.Scheme = "https")
    (ha : Header.Get req.Header "Authorization" ≠ "" ∨
      Header.Get req.Header "WWW-Authenticate" ≠ "" ∨
      Header.Get req.Header "Proxy-Authorization" ≠ "") :
    (ServeHTTP (State.start log) req).wr.status = some 404 ∧
    (ServeHTTP (State.start log) req).wr.body = "\n" := by
  rw [serveHTTP_auth log req hs (hasAuthHeader_of_get req ha)]
  exact ⟨rfl, rfl⟩

theorem serveHTTP_auth_404_witness :
    (reqAuthHeadImage.URL.Scheme = "http" ∨ reqAuthHeadImage.URL.Scheme = "https") ∧
    (Header.Get reqAuthHeadImage.Header "Authorization" ≠ "" ∨
      Header.Get reqAuthHeadImage.Header "WWW-Authenticate" ≠ "" ∨
      Header.Get reqAuthHeadImage.Header "Proxy-Authorization" ≠ "") ∧
    ((ServeHTTP (State.start []) reqAuthHeadImage).wr.status = some 404 ∧
     (ServeHTTP (State.start []) reqAuthHeadImage).wr.body = "\n") :=
  ⟨by decide, by decide,
    serveHTTP_auth_404 [] reqAuthHeadImage (by decide) (by decide)⟩

/-- C3, as stated, fails: `GET http://example.com:8080/a.png` has scheme `http`, no
auth header, a host with a port and the path `/a.png`, which ends the URL string, and it
is answered with the HTML body, since the colon of the port is not in the character
class of the pattern. -/
theorem serveHTTP_image_counterexample :
    reqPngPort.Method = "GET" ∧ reqPngPort.URL.Scheme = "http" ∧
    hasAuthHeader reqPngPort = false ∧
    reqPngPort.URL.String = "http" ++ "://" ++ "example.com:8080" ++ "/a.png" ∧
    ".png".data <:+ reqPngPort.URL.String.data ∧
    (serve reqPngPort).wr.status = some 200 ∧
    (serve reqPngPort).wr.body = "<html></html>" ∧
    (serve reqPngPort).wr.body ≠ "" := by
  decide

/-- C3, amended: a GET request with scheme `http` or `https` and no auth header whose URL
string, as `String()` returns it, contains `http:` or `https:`, then characters of the
class `[/|.|\w|\s|-]` only, then `.png`, `.jpg` or `.gif` (whatever follows, a query for
one) is answered with status 200 and an empty body. -/
theorem serveHTTP_image_200 (log : List String) (req : http.Request)
    (hm : req.Method = "GET")
    (hs : req.URL.Scheme = "http" ∨ req.URL.Scheme = "https")
    (ha : hasAuthHeader req = false)
    (hi : ContainsImageURL req.URL.String) :
    (ServeHTTP (State.start log) req).wr.status = some 200 ∧
    (ServeHTTP (State.start log) req).wr.body = "" := by
  have hh : req.Method ≠ "HEAD" := by rw [hm]; exact get_ne_http.1
  have hc : req.Method ≠ "CONNECT" := by rw [hm]; exact get_ne_http.2
  rw [serveHTTP_image log req hs ha hh hc ((matchString_imagePattern_iff _).2 hi)]
  exact ⟨rfl, rfl⟩

theorem serveHTTP_image_200_witness :
    reqPng.Method = "GET" ∧
    (reqPng.URL.Scheme = "http" ∨ reqPng.URL.Scheme = "https") ∧
    hasAuthHeader reqPng = false ∧
    reqPng.URL.String = "http://example.com/img/a.png?x=1" ∧
    ((ServeHTTP (State.start []) reqPng).wr.status = some 200 ∧
     (ServeHTTP (State.start []) reqPng).wr.body = "") :=
  ⟨by decide, by decide, by decide, by decide,
    serveHTTP_image_200 [] reqPng (by decide) (by decide) (by decide)
      ⟨"", "", "//example.com/img/a", "png", "?x=1", by decide, by decide, by decide,
        by decide⟩⟩

/-- C4, as stated, fails: the URL strings `http://example.com/a.pngx` and
`http://example.com/a.png/index` do not end in `.jpg`, `.gif` or `.png`, and both GET
requests take the image branch (the reason logged is `Image request`) and get an empty
body, since the pattern is not anchored at the end of the string. -/
theorem serveHTTP_default_counterexample :
    (reqPngx.Method = "GET" ∧ reqPngx.URL.Scheme = "http" ∧ hasAuthHeader reqPngx = false ∧
      reqPngx.URL.String = "http://example.com/a.pngx" ∧
      ¬ ".jpg".data <:+ reqPngx.URL.String.data ∧
      ¬ ".gif".data <:+ reqPngx.URL.String.data ∧
      ¬ ".png".data <:+ reqPngx.URL.String.data ∧
      (serve reqPngx).wr.body = "" ∧ "Image request" ∈ (serve reqPngx).log) ∧
    (reqPngMid.Method = "GET" ∧ reqPngMid.URL.Scheme = "http" ∧
      hasAuthHeader reqPngMid = false ∧
      reqPngMid.URL.String = "http://example.com/a.png/index" ∧
      ¬ ".jpg".data <:+ reqPngMid.URL.String.data ∧
      ¬ ".gif".data <:+ reqPngMid.URL.String.data ∧
      ¬ ".png".data <:+ reqPngMid.URL.String.data ∧
      (serve reqPngMid).wr.body = "" ∧ "Image request" ∈ (serve reqPngMid).log) := by
  decide

/-- C4, amended: a GET request with scheme `http` or `https` and no auth header whose URL
string nowhere contains `http:` or `https:` followed by characters of the class
`[/|.|\w|\s|-]` and then `.jpg`, `.gif` or `.png` does not take the image branch and is
answered with status 200 and the body `<html></html>`. -/
theorem serveHTTP_no_image_default (log : List String) (req : http.Request)
    (hm : req.Method = "GET")
    (hs : req.URL.Scheme = "http" ∨ req.URL.Scheme = "https")
    (ha : hasAuthHeader req = false)
    (hi : ¬ ContainsImageURL req.URL.String) :
    "Image request" ∉ (ServeHTTP (State.start log) req).log.drop (log.length + 1) ∧
    (ServeHTTP (State.start log) req).wr.status = some 200 ∧
    (ServeHTTP (State.start log) req).wr.body = "<html></html>" := by
  have hh : req.Method ≠ "HEAD" := by rw [hm]; exact get_ne_http.1
  have hc : req.Method ≠ "CONNECT" := by rw [hm]; exact get_ne_http.2
  have hi2 : regexp.MatchString imagePattern req.URL.String = false := by
    rw [← Bool.not_eq_true, matchString_imagePattern_iff]
    exact hi
  rw [serveHTTP_default log req hs ha hh hc hi2]
  refine ⟨?_, rfl, rfl⟩
  show "Image request" ∉ (log ++ [requestRecord req] ++ ["Returning empty HTML"]).drop
    (log.length + 1)
  rw [drop_records]
  decide

theorem serveHTTP_no_image_default_witness :
    reqPlain.Method = "GET" ∧
    (reqPlain.URL.Scheme = "http" ∨ reqPlain.URL.Scheme = "https") ∧
    hasAuthHeader reqPlain = false ∧
    ("Image request" ∉ (ServeHTTP (State.start []) reqPlain).log.drop
        (([] : List String).length + 1) ∧
     (ServeHTTP (State.start []) reqPlain).wr.status = some 200 ∧
     (ServeHTTP (State.start []) reqPlain).wr.body = "<html></html>") :=
  ⟨by decide, by decide, by decide,
    serveHTTP_no_image_default [] reqPlain (by decide) (by decide) (by decide)
      (fun h => absurd ((matchString_imagePattern_iff _).2 h) (by decide))⟩

/-- C5, as stated, fails on the body: `CONNECT http://example.com:443` is answered with
status 404 and a body of one newline, which `http.Error` writes after the empty message. -/
theorem serveHTTP_connect_counterexample :
    reqConnect.Method = "CONNECT" ∧ reqConnect.URL.Scheme = "http" ∧
    (serve reqConnect).wr.status = some 404 ∧
    (serve reqConnect).wr.body = "\n" ∧
    (serve reqConnect).wr.body ≠ "" := by
  decide

/-- C5, amended: a CONNECT request with scheme `http` or `https` is answered with
status 404 and a body that is exactly one newline. -/
theorem serveHTTP_connect_404 (log : List String) (req : http.Request)
    (hm : req.Method = "CONNECT")
    (hs : req.URL.Scheme = "http" ∨ req.URL.Scheme = "https") :
    (ServeHTTP (State.start log) req).wr.status = some 404 ∧
    (ServeHTTP (State.start log) req).wr.body = "\n" := by
  cases ha : hasAuthHeader req with
  | true =>
    rw [serveHTTP_auth log req hs ha]
    exact ⟨rfl, rfl⟩
  | false =>
    rw [serveHTTP_connect log req hs ha hm]
    exact ⟨rfl, rfl⟩

theorem serveHTTP_connect_404_witness :
    reqConnect.Method = "CONNECT" ∧
    (reqConnect.URL.Scheme = "http" ∨ reqConnect.URL.Scheme = "https") ∧
    ((ServeHTTP (State.start []) reqConnect).wr.status = some 404 ∧
     (ServeHTTP (State.start []) reqConnect).wr.body = "\n") :=
  ⟨by decide, by decide, serveHTTP_connect_404 [] reqConnect (by decide) (by decide)⟩

/-- C6: a HEAD request with scheme `http` or `https` and no auth header, whatever its
target, is answered with status 200 and an empty body. -/
theorem serveHTTP_head_200 (log : List String) (req : http.Request)
    (hm : req.Method = "HEAD")
    (hs : req.URL.Scheme = "http" ∨ req.URL.Scheme = "https")
    (ha : hasAuthHeader req = false) :
    (ServeHTTP (State.start log) req).wr.status = some 200 ∧
    (ServeHTTP (State.start log) req).wr.body = "" := by
  rw [serveHTTP_head log req hs ha hm]
  exact ⟨rfl, rfl⟩

theorem serveHTTP_head_200_witness :
    reqHead.Method = "HEAD" ∧
    (reqHead.URL.Scheme = "http" ∨ reqHead.URL.Scheme = "https") ∧
    hasAuthHeader reqHead = false ∧
    ((ServeHTTP (State.start []) reqHead).wr.status = some 200 ∧
     (ServeHTTP (State.start []) reqHead).wr.body = "") :=
  ⟨by decide, by decide, by decide,
    serveHTTP_head_200 [] reqHead (by decide) (by decide) (by decide)⟩

/-- C7: a request with scheme `http` or `https` that matches none of the rules 1 to 5 (the
authentication condition is false, the method is neither HEAD nor CONNECT, the image
pattern does not match the URL string) is answered with status 200 and the body
`<html></html>`. -/
theorem serveHTTP_fallback (log : List String) (req : http.Request)
    (hs : req.URL.Scheme = "http" ∨ req.URL.Scheme = "https")
    (ha : hasAuthHeader req = false)
    (hh : req.Method ≠ "HEAD") (hc : req.Method ≠ "CONNECT")
    (hi : regexp.MatchString imagePattern req.URL.String = false) :
    (ServeHTTP (State.start log) req).wr.status = some 200 ∧
    (ServeHTTP (State.start log) req).wr.body = "<html></html>" := by
  rw [serveHTTP_default log req hs ha hh hc hi]
  exact ⟨rfl, rfl⟩

theorem serveHTTP_fallback_witness :
    (reqPngPort.URL.Scheme = "http" ∨ reqPngPort.URL.Scheme = "https") ∧
    hasAuthHeader reqPngPort = false ∧
    reqPngPort.Method ≠ "HEAD" ∧ reqPngPort.Method ≠ "CONNECT" ∧
    regexp.MatchString imagePattern reqPngPort.URL.String = false ∧
    ((ServeHTTP (State.start []) reqPngPort).wr.status = some 200 ∧
     (ServeHTTP (State.start []) reqPngPort).wr.body = "<html></html>") :=
  ⟨by decide, by decide, by decide, by decide, by decide,
    serveHTTP_fallback [] reqPngPort (by decide) (by decide) (by decide) (by decide)
      (by decide)⟩

/-- C8, as stated, fails: the request `HEAD http://example.com/` carries the non-empty
value `Basic c2VjcmV0` under `Authorization`, in second place after an empty value, and
the reason logged is the HEAD one, not `found authentication header`. -/
theorem serveHTTP_auth_first_counterexample :
    reqAuthSecondHead.URL.Scheme = "http" ∧
    "Basic c2VjcmV0" ∈ Header.values reqAuthSecondHead.Header "Authorization" ∧
    "Basic c2VjcmV0" ≠ "" ∧
    (serve reqAuthSecondHead).log =
      ["10.0.0.1:4000 HEAD http://example.com/ Headers: ,Authorization : ,Basic c2VjcmV0",
       "HEAD request - returning OK"] ∧
    "found authentication header" ∉ (serve reqAuthSecondHead).log := by
  decide

/-- C8, amended: the rules are tried in the order scheme, auth, HEAD, CONNECT, image,
default and the first match wins: for a request with scheme `http` or `https` whose first
value under `Authorization`, `WWW-Authenticate` or `Proxy-Authorization` (as `Header.Get`
reads it) is not empty, the records logged are the request record and then the one reason
`found authentication header`, whatever the method and the URL; so no HEAD, CONNECT
or image reason is logged. -/
theorem serveHTTP_auth_first (log : List String) (req : http.Request)
    (hs : req.URL.Scheme = "http" ∨ req.URL.Scheme = "https")
    (ha : Header.Get req.Header "Authorization" ≠ "" ∨
      Header.Get req.Header "WWW-Authenticate" ≠ "" ∨
      Header.Get req.Header "Proxy-Authorization" ≠ "") :
    (ServeHTTP (State.start log) req).log =
      log ++
        [req.RemoteAddr ++ " " ++ req.Method ++ " " ++ req.URL.String ++ " Headers: " ++
          req.Header.foldl
            (fun headers kv => headers ++ "," ++ kv.1 ++ " : " ++ strings.Join kv.2 ",") "",
         "found authentication header"] ∧
    (∀ reason ∈ ["HEAD request - returning OK", "CONNECT request - returning 404",
        "Image request", "Returning empty HTML"],
      reason ∉ ((ServeHTTP (State.start log) req).log.drop (log.length + 1))) := by
  rw [serveHTTP_auth log req hs (hasAuthHeader_of_get req ha), ← requestRecord_eq]
  constructor
  · simp
  · show ∀ reason ∈ _, reason ∉ (log ++ [requestRecord req] ++
      ["found authentication header"]).drop (log.length + 1)
    rw [drop_records]
    decide

theorem serveHTTP_auth_first_witness :
    (reqAuthHeadImage.URL.Scheme = "http" ∨ reqAuthHeadImage.URL.Scheme = "https") ∧
    (Header.Get reqAuthHeadImage.Header "Authorization" ≠ "" ∨
      Header.Get reqAuthHeadImage.Header "WWW-Authenticate" ≠ "" ∨
      Header.Get reqAuthHeadImage.Header "Proxy-Authorization" ≠ "") ∧
    reqAuthHeadImage.Method = "HEAD" ∧
    regexp.MatchString imagePattern reqAuthHeadImage.URL.String = true ∧
    (ServeHTTP (State.start ["earlier record"]) reqAuthHeadImage).log =
      ["earlier record",
       "10.0.0.1:4000 HEAD http://example.com/a.png Headers: ,Authorization : Basic c2VjcmV0",
       "found authentication header"] ∧
    ((ServeHTTP (State.start ["earlier record"]) reqAuthHeadImage).log =
      ["earlier record"] ++
        [reqAuthHeadImage.RemoteAddr ++ " " ++ reqAuthHeadImage.Method ++ " " ++
          reqAuthHeadImage.URL.String ++ " Headers: " ++
          reqAuthHeadImage.Header.foldl
            (fun headers kv => headers ++ "," ++ kv.1 ++ " : " ++ strings.Join kv.2 ",") "",
         "found authentication header"] ∧
     (∀ reason ∈ ["HEAD request - returning OK", "CONNECT request - returning 404",
        "Image request", "Returning empty HTML"],
      reason ∉ ((ServeHTTP (State.start ["earlier record"]) reqAuthHeadImage).log.drop
        (["earlier record"].length + 1)))) :=
  ⟨by decide, by decide, by decide, by decide, by decide,
    serveHTTP_auth_first ["earlier record"] reqAuthHeadImage (by decide) (by decide)⟩

/-! ## The header map -/

namespace Header

theorem lookup_assign_self (h : Header) (k : String) (vv : List String) :
    lookup (assign h k vv) k = some vv := by
  induction h with
  | nil => simp [assign, lookup]
  | cons e h ih =>
    obtain ⟨k1, v1⟩ := e
    by_cases hk : k1 = k
    · simp [assign, lookup, hk]
    · simp [assign, lookup, hk, ih]

theorem lookup_assign_of_ne (h : Header) (k k2 : String) (vv : List String) (hne : k ≠ k2) :
    lookup (assign h k vv) k2 = lookup h k2 := by
  induction h with
  | nil => simp [assign, lookup, hne]
  | cons e h ih =>
    obtain ⟨k1, v1⟩ := e
    by_cases hk : k1 = k
    · subst hk
      simp [assign, lookup, hne]
    · by_cases hk2 : k1 = k2
      · subst hk2
        simp [assign, lookup, hk]
      · simp [assign, lookup, hk, hk2, ih]

end Header

theorem canonical_xff :
    textproto.CanonicalMIMEHeaderKey "X-Forwarded-For" = "X-Forwarded-For" := by
  decide

theorem join_append_singleton (prior : List String) (host sep : String) (hne : prior ≠ []) :
    strings.Join (prior ++ [host]) sep = strings.Join prior sep ++ sep ++ host := by
  cases prior with
  | nil => exact absurd rfl hne
  | cons e rest => simp [strings.Join, List.foldl_append]

/-- With no key `X-Forwarded-For` in the map, `appendHostToXForwardHeader` gives the key
the single value `host`. -/
theorem appendHost_absent (header : Header) (host : String)
    (hp : Header.lookup header "X-Forwarded-For" = none) :
    Header.lookup (appendHostToXForwardHeader header host) "X-Forwarded-For" = some [host] := by
  simp only [appendHostToXForwardHeader, hp, Header.Set, canonical_xff]
  exact Header.lookup_assign_self _ _ _

/-! ## The claims on `appendHostToXForwardHeader` -/

/-- C9: when the `X-Forwarded-For` entry of the header map holds one or more prior values,
`appendHostToXForwardHeader` leaves the key with exactly one value, the prior values
joined by `, ` followed by `, ` and the host; this is the join of the prior values and
the host. -/
theorem appendHost_prior (header : Header) (prior : List String) (host : String)
    (hp : Header.lookup header "X-Forwarded-For" = some prior) (hne : prior ≠ []) :
    Header.lookup (appendHostToXForwardHeader header host) "X-Forwarded-For" =
      some [strings.Join prior ", " ++ ", " ++ host] ∧
    strings.Join prior ", " ++ ", " ++ host = strings.Join (prior ++ [host]) ", " := by
  constructor
  · simp only [appendHostToXForwardHeader, hp, Header.Set, canonical_xff]
    exact Header.lookup_assign_self _ _ _
  · exact (join_append_singleton prior host ", " hne).symm

theorem appendHost_prior_witness :
    Header.lookup hdrPrior "X-Forwarded-For" = some ["1.2.3.4"] ∧
    ["1.2.3.4"] ≠ ([] : List String) ∧
    strings.Join ["1.2.3.4"] ", " ++ ", " ++ "5.6.7.8" = "1.2.3.4, 5.6.7.8" ∧
    (Header.lookup (appendHostToXForwardHeader hdrPrior "5.6.7.8") "X-Forwarded-For" =
      some [strings.Join ["1.2.3.4"] ", " ++ ", " ++ "5.6.7.8"] ∧
     strings.Join ["1.2.3.4"] ", " ++ ", " ++ "5.6.7.8" =
      strings.Join (["1.2.3.4"] ++ ["5.6.7.8"]) ", ") :=
  ⟨by decide, by decide, by decide,
    appendHost_prior hdrPrior ["1.2.3.4"] "5.6.7.8" (by decide) (by decide)⟩

/-- C10, at the failing input: with the key `X-Forwarded-For` present and its value list
empty, `appendHostToXForwardHeader` with the host `5.6.7.8` leaves the single value
`, 5.6.7.8`, which is not the host. -/
theorem appendHost_empty_prior :
    Header.lookup hdrEmptyPrior "X-Forwarded-For" = some [] ∧
    Header.lookup (appendHostToXForwardHeader hdrEmptyPrior "5.6.7.8") "X-Forwarded-For" =
      some [", 5.6.7.8"] ∧
    Header.lookup (appendHostToXForwardHeader hdrEmptyPrior "5.6.7.8") "X-Forwarded-For" ≠
      some ["5.6.7.8"] := by
  decide

/-! ## Letter case and canonical keys -/

namespace textproto

theorem mem_upperLetters (c : Char) (h : c.isUpper = true) : c ∈ upperLetters := by
  have hc : Char.ofNat c.toNat = c := Char.ofNat_toNat c
  simp only [Char.isUpper, Bool.and_eq_true, decide_eq_true_eq] at h
  have h1 : 65 ≤ c.toNat := h.1
  have h2 : c.toNat ≤ 90 := h.2
  rw [← hc]
  simp only [upperLetters, List.mem_map, List.mem_range]
  exact ⟨c.toNat - 65, by omega, by congr 1; omega⟩

theorem toLower_of_not_upper (c : Char) (h : c.isUpper = false) : c.toLower = c := by
  simp only [Char.isUpper, Bool.and_eq_false_iff, decide_eq_false_iff_not] at h
  simp only [Char.toLower]
  split
  · rename_i h2
    rcases h with h | h
    · exact absurd h2.1 h
    · exact absurd h2.2 h
  · rfl

theorem toLower_inj_on_upper :
    ∀ c ∈ upperLetters, ∀ d ∈ upperLetters, c.toLower = d.toLower → c = d := by
  decide

theorem toLower_eq_cases (c d : Char) (h : c.toLower = d.toLower) :
    c = d ∨ (c.isUpper = true ∧ d = c.toLower) ∨ (d.isUpper = true ∧ c = d.toLower) := by
  cases hc : c.isUpper <;> cases hd : d.isUpper
  · left
    rw [toLower_of_not_upper c hc, toLower_of_not_upper d hd] at h
    exact h
  · right; right
    rw [toLower_of_not_upper c hc] at h
    exact ⟨rfl, h⟩
  · right; left
    rw [toLower_of_not_upper d hd] at h
    exact ⟨rfl, h.symm⟩
  · left
    exact toLower_inj_on_upper c (mem_upperLetters c hc) d (mem_upperLetters d hd) h

theorem canonicalBytes_cons (u : Bool) (c : Char) (cs : List Char) :
    canonicalBytes u (c :: cs) =
      (if u && c.isLower then c.toUpper else if !u && c.isUpper then c.toLower else c) ::
        canonicalBytes
          ((if u && c.isLower then c.toUpper else if !u && c.isUpper then c.toLower else c)
            == '-') cs := rfl

theorem upper_lower_agree : ∀ c ∈ upperLetters,
    (if c.isLower then c.toUpper else c) =
      (if c.toLower.isLower then c.toLower.toUpper else c.toLower) ∧
    (if c.isUpper then c.toLower else c) =
      (if c.toLower.isUpper then c.toLower.toLower else c.toLower) ∧
    validHeaderFieldByte c = validHeaderFieldByte c.toLower := by
  decide

/-- Two bytes that are equal up to letter case are rewritten to the same byte, and are
both allowed in a field name or both not. -/
theorem byte_congr (c d : Char) (h : c.toLower = d.toLower) (u : Bool) :
    (if u && c.isLower then c.toUpper else if !u && c.isUpper then c.toLower else c) =
      (if u && d.isLower then d.toUpper else if !u && d.isUpper then d.toLower else d) ∧
    validHeaderFieldByte c = validHeaderFieldByte d := by
  rcases toLower_eq_cases c d h with rfl | ⟨hc, rfl⟩ | ⟨hd, rfl⟩
  · exact ⟨rfl, rfl⟩
  · have hf := upper_lower_agree c (mem_upperLetters c hc)
    refine ⟨?_, hf.2.2⟩
    cases u
    · simpa using hf.2.1
    · simpa using hf.1
  · have hf := upper_lower_agree d (mem_upperLetters d hd)
    refine ⟨?_, hf.2.2.symm⟩
    cases u
    · simpa using hf.2.1.symm
    · simpa using hf.1.symm

theorem canonicalBytes_congr (l1 l2 : List Char)
    (h : l1.map Char.toLower = l2.map Char.toLower) (u : Bool) :
    canonicalBytes u l1 = canonicalBytes u l2 ∧
      l1.all validHeaderFieldByte = l2.all validHeaderFieldByte := by
  induction l1 generalizing l2 u with
  | nil =>
    cases l2 with
    | nil => exact ⟨rfl, rfl⟩
    | cons d l2 => simp at h
  | cons c l1 ih =>
    cases l2 with
    | nil => simp at h
    | cons d l2 =>
      simp only [List.map_cons, List.cons.injEq] at h
      have hb := byte_congr c d h.1 u
      rw [canonicalBytes_cons, canonicalBytes_cons, hb.1]
      refine ⟨?_, ?_⟩
      · rw [(ih l2 h.2 _).1]
      · simp only [List.all_cons, hb.2, (ih l2 h.2 u).2]

/-- Keys that are equal up to letter case have the same canonical form, when one of them
is made of bytes allowed in a field name. -/
theorem canonical_of_equalFold (k s : String) (h : strings.EqualFold k s = true)
    (hs : s.data.all validHeaderFieldByte = true) :
    CanonicalMIMEHeaderKey k = CanonicalMIMEHeaderKey s := by
  have hl : k.data.map Char.toLower = s.data.map Char.toLower := by
    simpa [strings.EqualFold] using h
  have hc := canonicalBytes_congr k.data s.data hl true
  have hk : k.data.all validHeaderFieldByte = true := by rw [hc.2]; exact hs
  simp only [CanonicalMIMEHeaderKey, hk, hs, if_true, hc.1]

end textproto

/-! ## `delHopHeaders` -/

theorem hopHeaders_canonical :
    ∀ h ∈ hopHeaders, textproto.CanonicalMIMEHeaderKey h = h := by
  decide

theorem hopHeaderSet_valid :
    ∀ s ∈ hopHeaderSet, s.data.all textproto.validHeaderFieldByte = true ∧
      textproto.CanonicalMIMEHeaderKey s ∈ hopHeaders := by
  decide

theorem foldl_del_eq_filter (ks : List String) (header : Header)
    (hk : ∀ k ∈ ks, textproto.CanonicalMIMEHeaderKey k = k) :
    ks.foldl (fun hd h => Header.Del hd h) header =
      header.filter (fun e => decide (e.1 ∉ ks)) := by
  induction ks generalizing header with
  | nil => simp
  | cons k ks ih =>
    have hk1 := hk k (List.mem_cons_self _ _)
    have hk2 : ∀ x ∈ ks, textproto.CanonicalMIMEHeaderKey x = x :=
      fun x hx => hk x (List.mem_cons_of_mem _ hx)
    rw [List.foldl_cons, ih _ hk2, Header.Del, Header.delete, hk1, List.filter_filter]
    apply List.filter_congr
    intro e _
    simp only [List.mem_cons, not_or, ne_eq, Bool.decide_and, Bool.and_comm]

/-- The map that `delHopHeaders` leaves: the entries whose key is none of `hopHeaders`. -/
theorem delHopHeaders_eq_filter (header : Header) :
    delHopHeaders header = header.filter (fun e => decide (e.1 ∉ hopHeaders)) :=
  foldl_del_eq_filter hopHeaders header hopHeaders_canonical

theorem lookup_filter (header : Header) (p : String × List String → Bool) (k : String)
    (hp : ∀ vv, p (k, vv) = true) :
    Header.lookup (header.filter p) k = Header.lookup header k := by
  induction header with
  | nil => rfl
  | cons e header ih =>
    obtain ⟨k1, v1⟩ := e
    by_cases hk : k1 = k
    · subst hk
      simp [List.filter, hp, Header.lookup]
    · cases hpe : p (k1, v1)
      · simp [List.filter, hpe, Header.lookup, hk, ih]
      · simp [List.filter, hpe, Header.lookup, hk, ih]

/-! ## The claims on `delHopHeaders` -/

/-- C11, as stated, fails: a map that holds `connection` (in lower case) as a key keeps
that key after `delHopHeaders`, and the key equals `Connection` up to letter case. -/
theorem delHopHeaders_counterexample :
    "connection" ∈ Header.keys hdrLowerHop ∧
    "connection" ∈ Header.keys (delHopHeaders hdrLowerHop) ∧
    "Connection" ∈ hopHeaderSet ∧
    strings.EqualFold "connection" "Connection" = true := by
  decide

/-- C11, amended: after `delHopHeaders` no key of the map is one of the eight names of
`hopHeaders`, and no key in canonical form equals, up to letter case, a name of the
HopHeaderSet. -/
theorem delHopHeaders_removes (header : Header) (k : String)
    (hk : k ∈ Header.keys (delHopHeaders header)) :
    k ∉ hopHeaders ∧
    (textproto.CanonicalMIMEHeaderKey k = k →
      ∀ s ∈ hopHeaderSet, strings.EqualFold k s = false) := by
  have h1 : k ∉ hopHeaders := by
    rw [delHopHeaders_eq_filter, Header.keys, List.mem_map] at hk
    obtain ⟨e, he, rfl⟩ := hk
    have h2 := (List.mem_filter.1 he).2
    simpa using h2
  refine ⟨h1, ?_⟩
  intro hcan s hs
  cases hf : strings.EqualFold k s with
  | false => rfl
  | true =>
    have hv := hopHeaderSet_valid s hs
    have hc := textproto.canonical_of_equalFold k s hf hv.1
    rw [hcan] at hc
    rw [hc] at h1
    exact absurd hv.2 h1

theorem delHopHeaders_removes_witness :
    "Accept" ∈ Header.keys (delHopHeaders hdrHop) ∧
    Header.keys (delHopHeaders hdrHop) = ["Accept", "Cookie"] ∧
    ("Accept" ∉ hopHeaders ∧
     (textproto.CanonicalMIMEHeaderKey "Accept" = "Accept" →
      ∀ s ∈ hopHeaderSet, strings.EqualFold "Accept" s = false)) :=
  ⟨by decide, by decide, delHopHeaders_removes hdrHop "Accept" (by decide)⟩

/-- C12: `delHopHeaders` is idempotent: applied twice it gives the same map as applied
once. -/
theorem delHopHeaders_idempotent (header : Header) :
    delHopHeaders (delHopHeaders header) = delHopHeaders header := by
  rw [delHopHeaders_eq_filter (delHopHeaders header), delHopHeaders_eq_filter header,
    List.filter_filter]
  apply List.filter_congr
  intro e _
  simp

/-- C17: `delHopHeaders` changes nothing but the hop-by-hop entries: a key that is none
of the eight names of `hopHeaders` is present after the call exactly when it was present
before, with the same values in the same order. -/
theorem delHopHeaders_frame (header : Header) (k : String) (hk : k ∉ hopHeaders) :
    Header.lookup (delHopHeaders header) k = Header.lookup header k := by
  rw [delHopHeaders_eq_filter]
  apply lookup_filter
  intro vv
  simpa using hk

theorem delHopHeaders_frame_witness :
    "Accept" ∉ hopHeaders ∧
    Header.lookup hdrHop "Accept" = some ["text/html", "*/*"] ∧
    Header.lookup (delHopHeaders hdrHop) "Accept" = Header.lookup hdrHop "Accept" :=
  ⟨by decide, by decide, delHopHeaders_frame hdrHop "Accept" (by decide)⟩

/-! ## `copyHeader` -/

theorem values_add_self (d : Header) (k v : String) :
    Header.values (Header.Add d k v) (textproto.CanonicalMIMEHeaderKey k) =
      Header.values d (textproto.CanonicalMIMEHeaderKey k) ++ [v] := by
  simp only [Header.values, Header.Add, Header.lookup_assign_self, Option.getD_some]

theorem lookup_add_of_ne (d : Header) (k v k2 : String)
    (hne : textproto.CanonicalMIMEHeaderKey k ≠ k2) :
    Header.lookup (Header.Add d k v) k2 = Header.lookup d k2 := by
  simp only [Header.Add]
  exact Header.lookup_assign_of_ne _ _ _ _ hne

theorem lookup_addAll_of_ne (vv : List String) (d : Header) (k k2 : String)
    (hne : textproto.CanonicalMIMEHeaderKey k ≠ k2) :
    Header.lookup (vv.foldl (fun d v => Header.Add d k v) d) k2 = Header.lookup d k2 := by
  induction vv generalizing d with
  | nil => rfl
  | cons v vv ih => rw [List.foldl_cons, ih, lookup_add_of_ne d k v k2 hne]

theorem values_addAll_self (vv : List String) (d : Header) (k : String) :
    Header.values (vv.foldl (fun d v => Header.Add d k v) d)
        (textproto.CanonicalMIMEHeaderKey k) =
      Header.values d (textproto.CanonicalMIMEHeaderKey k) ++ vv := by
  induction vv generalizing d with
  | nil => simp
  | cons v vv ih => rw [List.foldl_cons, ih, values_add_self, List.append_assoc]; rfl

theorem copyHeader_cons (dst : Header) (k : String) (vv : List String) (src : Header) :
    copyHeader dst ((k, vv) :: src) =
      copyHeader (vv.foldl (fun d v => Header.Add d k v) dst) src := rfl

theorem lookup_of_not_mem_keys (h : Header) (k : String) (hk : k ∉ Header.keys h) :
    Header.lookup h k = none := by
  induction h with
  | nil => rfl
  | cons e h ih =>
    obtain ⟨k1, v1⟩ := e
    simp only [Header.keys, List.map_cons, List.mem_cons, not_or] at hk
    have hne : ¬ k1 = k := fun h2 => hk.1 h2.symm
    simp only [Header.lookup, hne, if_false]
    exact ih hk.2

/-- What `copyHeader` does to each key, for a source map with distinct canonical keys. -/
theorem copyHeader_spec (src : Header) :
    ∀ dst : Header, Header.WF src → Header.Canonical src → ∀ k : String,
      Header.values (copyHeader dst src) k = Header.values dst k ++ Header.values src k ∧
      (k ∉ Header.keys src → Header.lookup (copyHeader dst src) k = Header.lookup dst k) := by
  induction src with
  | nil =>
    intro dst _ _ k
    simp [copyHeader, Header.values, Header.lookup]
  | cons e src ih =>
    obtain ⟨k0, vv0⟩ := e
    intro dst hwf hcan k
    have hwf2 : Header.WF src := (List.nodup_cons.1 hwf).2
    have hk0 : k0 ∉ Header.keys src := (List.nodup_cons.1 hwf).1
    have hcan0 : textproto.CanonicalMIMEHeaderKey k0 = k0 :=
      hcan k0 (List.mem_cons_self _ _)
    have hcan2 : Header.Canonical src := fun x hx => hcan x (List.mem_cons_of_mem _ hx)
    rw [copyHeader_cons]
    have h := ih (vv0.foldl (fun d v => Header.Add d k0 v) dst) hwf2 hcan2 k
    by_cases hk : k0 = k
    · subst hk
      refine ⟨?_, ?_⟩
      · rw [h.1]
        have h3 := values_addAll_self vv0 dst k0
        rw [hcan0] at h3
        rw [h3]
        simp [Header.values, Header.lookup, lookup_of_not_mem_keys src k0 hk0]
      · intro hnot
        exact absurd (List.mem_cons_self _ _) hnot
    · have hne : textproto.CanonicalMIMEHeaderKey k0 ≠ k := by rw [hcan0]; exact hk
      have h4 := lookup_addAll_of_ne vv0 dst k0 k hne
      refine ⟨?_, ?_⟩
      · rw [h.1]
        simp only [Header.values, h4, Header.lookup, hk, if_false]
      · intro hnot
        have hnot2 : k ∉ Header.keys src := fun hx => hnot (List.mem_cons_of_mem _ hx)
        rw [h.2 hnot2, h4]

/-! ## The claim on `copyHeader` -/

/-- C13, as stated, fails: with the source key `x-trace` in lower case, `copyHeader` adds
the value under `X-Trace`; the key `x-trace` of the source has no value in the
destination, and the key `X-Trace` of the destination, which is not a key of the source,
is changed. -/
theorem copyHeader_counterexample :
    copyHeader hdrTraceDst hdrLowerSrc = [("X-Trace", ["old", "a"])] ∧
    "x-trace" ∈ Header.keys hdrLowerSrc ∧
    Header.values (copyHeader hdrTraceDst hdrLowerSrc) "x-trace" ≠
      Header.values hdrTraceDst "x-trace" ++ Header.values hdrLowerSrc "x-trace" ∧
    "X-Trace" ∉ Header.keys hdrLowerSrc ∧
    Header.lookup (copyHeader hdrTraceDst hdrLowerSrc) "X-Trace" ≠
      Header.lookup hdrTraceDst "X-Trace" := by
  decide

/-- C13, amended: for a source map whose keys are in canonical form, after
`copyHeader(dst, src)` every key has in `dst` its old values followed by all the values
that `src` holds for it, in their order, none dropped and none merged, and a key of `dst`
that is not a key of `src` is unchanged. -/
theorem copyHeader_appends (dst src : Header) (k : String)
    (hwf : Header.WF src) (hcan : Header.Canonical src) :
    Header.values (copyHeader dst src) k = Header.values dst k ++ Header.values src k ∧
    (k ∉ Header.keys src → Header.lookup (copyHeader dst src) k = Header.lookup dst k) :=
  copyHeader_spec src dst hwf hcan k

theorem copyHeader_appends_witness :
    Header.WF hdrSrc ∧ Header.Canonical hdrSrc ∧
    Header.values (copyHeader hdrDst hdrSrc) "Vary" = ["Origin", "Accept", "Accept"] ∧
    (Header.values (copyHeader hdrDst hdrSrc) "Vary" =
        Header.values hdrDst "Vary" ++ Header.values hdrSrc "Vary" ∧
     ("Vary" ∉ Header.keys hdrSrc →
        Header.lookup (copyHeader hdrDst hdrSrc) "Vary" = Header.lookup hdrDst "Vary")) :=
  ⟨by decide, by decide, by decide,
    copyHeader_appends hdrDst hdrSrc "Vary" (by decide) (by decide)⟩

/-! ## Chains of `appendHostToXForwardHeader` -/

theorem appendHost_single (header : Header) (p host : String)
    (hp : Header.lookup header "X-Forwarded-For" = some [p]) :
    Header.lookup (appendHostToXForwardHeader header host) "X-Forwarded-For" =
      some [p ++ ", " ++ host] := by
  simp only [appendHostToXForwardHeader, hp, Header.Set, canonical_xff]
  rw [Header.lookup_assign_self]
  rfl

theorem appendHost_other (header : Header) (host k : String) (hk : k ≠ "X-Forwarded-For") :
    Header.lookup (appendHostToXForwardHeader header host) k = Header.lookup header k := by
  simp only [appendHostToXForwardHeader, Header.Set, canonical_xff]
  exact Header.lookup_assign_of_ne _ _ _ _ (fun h => hk h.symm)

theorem appendHost_fold (hosts : List String) (header : Header) (p : String)
    (hp : Header.lookup header "X-Forwarded-For" = some [p]) :
    Header.lookup (hosts.foldl appendHostToXForwardHeader header) "X-Forwarded-For" =
      some [hosts.foldl (fun acc s => acc ++ ", " ++ s) p] := by
  induction hosts generalizing header p with
  | nil => exact hp
  | cons h hosts ih =>
    rw [List.foldl_cons, List.foldl_cons]
    exact ih _ _ (appendHost_single header p h hp)

theorem appendHost_fold_other (hosts : List String) (header : Header) (k : String)
    (hk : k ≠ "X-Forwarded-For") :
    Header.lookup (hosts.foldl appendHostToXForwardHeader header) k =
      Header.lookup header k := by
  induction hosts generalizing header with
  | nil => rfl
  | cons h hosts ih => rw [List.foldl_cons, ih, appendHost_other header h k hk]

/-- C18: calling `appendHostToXForwardHeader` with the hosts `h1`, ..., `hn` in turn, from
a header map without the key `X-Forwarded-For`, leaves that key with exactly one value,
the hosts joined by `, `, and leaves every other key as it was. -/
theorem appendHost_chain (header : Header) (hosts : List String) (k : String)
    (hne : hosts ≠ []) (habs : Header.lookup header "X-Forwarded-For" = none) :
    Header.lookup (hosts.foldl appendHostToXForwardHeader header) "X-Forwarded-For" =
      some [strings.Join hosts ", "] ∧
    (k ≠ "X-Forwarded-For" →
      Header.lookup (hosts.foldl appendHostToXForwardHeader header) k =
        Header.lookup header k) := by
  refine ⟨?_, appendHost_fold_other hosts header k⟩
  cases hosts with
  | nil => exact absurd rfl hne
  | cons h hosts =>
    rw [List.foldl_cons]
    exact appendHost_fold hosts _ h (appendHost_absent header h habs)

theorem appendHost_chain_witness :
    ["10.0.0.1", "10.0.0.2", "10.0.0.3"] ≠ ([] : List String) ∧
    Header.lookup hdrNoForward "X-Forwarded-For" = none ∧
    strings.Join ["10.0.0.1", "10.0.0.2", "10.0.0.3"] ", " = "10.0.0.1, 10.0.0.2, 10.0.0.3" ∧
    (Header.lookup (["10.0.0.1", "10.0.0.2", "10.0.0.3"].foldl appendHostToXForwardHeader
        hdrNoForward) "X-Forwarded-For" =
      some [strings.Join ["10.0.0.1", "10.0.0.2", "10.0.0.3"] ", "] ∧
     ("Accept" ≠ "X-Forwarded-For" →
      Header.lookup (["10.0.0.1", "10.0.0.2", "10.0.0.3"].foldl appendHostToXForwardHeader
        hdrNoForward) "Accept" = Header.lookup hdrNoForward "Accept")) :=
  ⟨by decide, by decide, by decide,
    appendHost_chain hdrNoForward ["10.0.0.1", "10.0.0.2", "10.0.0.3"] "Accept"
      (by decide) (by decide)⟩

/-! ## The decisions of `ServeHTTP` -/

/-- The six ways in which `ServeHTTP` ends: the condition of the branch, the reason
logged after the request record, the status and the body. -/
theorem serveHTTP_cases (log : List String) (req : http.Request) :
    ∃ reason : String, ∃ code : Nat, ∃ body : String,
      (ServeHTTP (State.start log) req).log = log ++ [requestRecord req] ++ [reason] ∧
      (ServeHTTP (State.start log) req).wr.status = some code ∧
      (ServeHTTP (State.start log) req).wr.body = body ∧
      ((¬ (req.URL.Scheme = "http" ∨ req.URL.Scheme = "https") ∧
          reason = "unsupported protocal scheme " ++ req.URL.Scheme ∧ code = 400 ∧
          body = "unsupported protocal scheme " ++ req.URL.Scheme ++ "\n") ∨
        ((req.URL.Scheme = "http" ∨ req.URL.Scheme = "https") ∧
          ((hasAuthHeader req = true ∧
              reason = "found authentication header" ∧ code = 404 ∧ body = "\n") ∨
            (hasAuthHeader req = false ∧
              ((req.Method = "HEAD" ∧
                  reason = "HEAD request - returning OK" ∧ code = 200 ∧ body = "") ∨
                (req.Method = "CONNECT" ∧
                  reason = "CONNECT request - returning 404" ∧ code = 404 ∧ body = "\n") ∨
                (req.Method ≠ "HEAD" ∧ req.Method ≠ "CONNECT" ∧
                  ((regexp.MatchString imagePattern req.URL.String = true ∧
                      reason = "Image request" ∧ code = 200 ∧ body = "") ∨
                    (regexp.MatchString imagePattern req.URL.String = false ∧
                      reason = "Returning empty HTML" ∧ code = 200 ∧
                      body = "<html></html>")))))))) := by
  by_cases hs : req.URL.Scheme = "http" ∨ req.URL.Scheme = "https"
  · cases ha : hasAuthHeader req with
    | true =>
      refine ⟨"found authentication header", 404, "\n", ?_, ?_, ?_, Or.inr ⟨hs, Or.inl ⟨rfl, rfl, rfl, rfl⟩⟩⟩
      all_goals rw [serveHTTP_auth log req hs ha]
      all_goals rfl
    | false =>
      by_cases hh : req.Method = "HEAD"
      · refine ⟨"HEAD request - returning OK", 200, "", ?_, ?_, ?_,
          Or.inr ⟨hs, Or.inr ⟨rfl, Or.inl ⟨hh, rfl, rfl, rfl⟩⟩⟩⟩
        all_goals rw [serveHTTP_head log req hs ha hh]
        all_goals rfl
      · by_cases hc : req.Method = "CONNECT"
        · refine ⟨"CONNECT request - returning 404", 404, "\n", ?_, ?_, ?_,
            Or.inr ⟨hs, Or.inr ⟨rfl, Or.inr (Or.inl ⟨hc, rfl, rfl, rfl⟩)⟩⟩⟩
          all_goals rw [serveHTTP_connect log req hs ha hc]
          all_goals rfl
        · cases hi : regexp.MatchString imagePattern req.URL.String with
          | true =>
            refine ⟨"Image request", 200, "", ?_, ?_, ?_,
              Or.inr ⟨hs, Or.inr ⟨rfl, Or.inr (Or.inr ⟨hh, hc, Or.inl ⟨rfl, rfl, rfl, rfl⟩⟩)⟩⟩⟩
            all_goals rw [serveHTTP_image log req hs ha hh hc hi]
            all_goals rfl
          | false =>
            refine ⟨"Returning empty HTML", 200, "<html></html>", ?_, ?_, ?_,
              Or.inr ⟨hs, Or.inr ⟨rfl, Or.inr (Or.inr ⟨hh, hc, Or.inr ⟨rfl, rfl, rfl, rfl⟩⟩)⟩⟩⟩
            all_goals rw [serveHTTP_default log req hs ha hh hc hi]
            all_goals rfl
  · have h1 : req.URL.Scheme ≠ "http" := fun h => hs (Or.inl h)
    have h2 : req.URL.Scheme ≠ "https" := fun h => hs (Or.inr h)
    refine ⟨"unsupported protocal scheme " ++ req.URL.Scheme, 400,
      "unsupported protocal scheme " ++ req.URL.Scheme ++ "\n", ?_, ?_, ?_,
      Or.inl ⟨hs, rfl, rfl, rfl⟩⟩
    all_goals rw [serveHTTP_scheme log req h1 h2]
    all_goals rfl

/-- C16: for every request `ServeHTTP` logs the request record first (remote address,
method, URL string and the headers) and then exactly one reason record, the one of the
decision taken: the scheme message when the scheme is neither `http` nor `https` (status
400); else `found authentication header` when an auth header is read as non-empty (404);
else the HEAD reason for the method HEAD (200); else the CONNECT reason for the method
CONNECT (404); else the image reason when the URL string contains an image URL (200);
else the empty HTML reason (200). -/
theorem serveHTTP_logs_one_reason (log : List String) (req : http.Request) :
    ∃ reason : String,
      (ServeHTTP (State.start log) req).log =
        log ++
          [req.RemoteAddr ++ " " ++ req.Method ++ " " ++ req.URL.String ++ " Headers: " ++
            req.Header.foldl
              (fun headers kv => headers ++ "," ++ kv.1 ++ " : " ++ strings.Join kv.2 ",") "",
           reason] ∧
      ((¬ (req.URL.Scheme = "http" ∨ req.URL.Scheme = "https") ∧
          reason = "unsupported protocal scheme " ++ req.URL.Scheme ∧
          (ServeHTTP (State.start log) req).wr.status = some 400) ∨
        ((req.URL.Scheme = "http" ∨ req.URL.Scheme = "https") ∧
          (Header.Get req.Header "WWW-Authenticate" ≠ "" ∨
            Header.Get req.Header "Authorization" ≠ "" ∨
            Header.Get req.Header "Proxy-Authorization" ≠ "") ∧
          reason = "found authentication header" ∧
          (ServeHTTP (State.start log) req).wr.status = some 404) ∨
        ((req.URL.Scheme = "http" ∨ req.URL.Scheme = "https") ∧
          ¬ (Header.Get req.Header "WWW-Authenticate" ≠ "" ∨
            Header.Get req.Header "Authorization" ≠ "" ∨
            Header.Get req.Header "Proxy-Authorization" ≠ "") ∧
          ((req.Method = "HEAD" ∧
              reason = "HEAD request - returning OK" ∧
              (ServeHTTP (State.start log) req).wr.status = some 200) ∨
            (req.Method = "CONNECT" ∧
              reason = "CONNECT request - returning 404" ∧
              (ServeHTTP (State.start log) req).wr.status = some 404) ∨
            (req.Method ≠ "HEAD" ∧ req.Method ≠ "CONNECT" ∧
              ContainsImageURL req.URL.String ∧
              reason = "Image request" ∧
              (ServeHTTP (State.start log) req).wr.status = some 200) ∨
            (req.Method ≠ "HEAD" ∧ req.Method ≠ "CONNECT" ∧
              ¬ ContainsImageURL req.URL.String ∧
              reason = "Returning empty HTML" ∧
              (ServeHTTP (State.start log) req).wr.status = some 200)))) := by
  obtain ⟨reason, code, body, hlog, hst, _, hc⟩ := serveHTTP_cases log req
  refine ⟨reason, ?_, ?_⟩
  · rw [hlog, List.append_assoc, ← requestRecord_eq]
    rfl
  · rw [hst]
    rcases hc with ⟨hs, hr, hcode, _⟩ | ⟨hs, ⟨ha, hr, hcode, _⟩ | ⟨ha, hm⟩⟩
    · exact Or.inl ⟨hs, hr, by rw [hcode]⟩
    · exact Or.inr (Or.inl ⟨hs, (hasAuthHeader_iff req).1 ha, hr, by rw [hcode]⟩)
    · have hna : ¬ (Header.Get req.Header "WWW-Authenticate" ≠ "" ∨
          Header.Get req.Header "Authorization" ≠ "" ∨
          Header.Get req.Header "Proxy-Authorization" ≠ "") := by
        intro h
        rw [(hasAuthHeader_iff req).2 h] at ha
        exact Bool.noConfusion ha
      refine Or.inr (Or.inr ⟨hs, hna, ?_⟩)
      rcases hm with ⟨hh, hr, hcode, _⟩ | ⟨hcn, hr, hcode, _⟩ |
        ⟨hh, hcn, ⟨hi, hr, hcode, _⟩ | ⟨hi, hr, hcode, _⟩⟩
      · exact Or.inl ⟨hh, hr, by rw [hcode]⟩
      · exact Or.inr (Or.inl ⟨hcn, hr, by rw [hcode]⟩)
      · exact Or.inr (Or.inr (Or.inl
          ⟨hh, hcn, (matchString_imagePattern_iff _).1 hi, hr, by rw [hcode]⟩))
      · refine Or.inr (Or.inr (Or.inr ⟨hh, hcn, ?_, hr, by rw [hcode]⟩))
        intro h
        rw [(matchString_imagePattern_iff _).2 h] at hi
        exact Bool.noConfusion hi

theorem serveHTTP_logs_one_reason_witness :
    (ServeHTTP (State.start ["earlier record"]) reqHead).log =
      ["earlier record",
       "10.0.0.1:4000 HEAD https://example.com/index.html Headers: ",
       "HEAD request - returning OK"] ∧
    (ServeHTTP (State.start ["earlier record"]) reqPlainOther).log =
      ["earlier record",
       "192.168.7.7:5555 GET http://example.com/index.html Headers: ,Cookie : a=1",
       "Returning empty HTML"] ∧
    (∃ reason : String,
      (ServeHTTP (State.start ["earlier record"]) reqPlainOther).log =
        ["earlier record"] ++
          [reqPlainOther.RemoteAddr ++ " " ++ reqPlainOther.Method ++ " " ++
            reqPlainOther.URL.String ++ " Headers: " ++
            reqPlainOther.Header.foldl
              (fun headers kv => headers ++ "," ++ kv.1 ++ " : " ++ strings.Join kv.2 ",") "",
           reason]) :=
  ⟨by decide, by decide,
    (serveHTTP_logs_one_reason ["earlier record"] reqPlainOther).imp (fun _ h => h.1)⟩

/-- C19: the status and the body of the response depend only on the URL scheme, the URL
string, the method and the first values of `WWW-Authenticate`, `Authorization` and
`Proxy-Authorization`: two requests that agree on these get the same status and body,
whatever their remote addresses, other headers and the records logged before. -/
theorem serveHTTP_depends_only (log1 log2 : List String) (r1 r2 : http.Request)
    (hs : r1.URL.Scheme = r2.URL.Scheme) (hu : r1.URL.String = r2.URL.String)
    (hm : r1.Method = r2.Method)
    (hw : Header.Get r1.Header "WWW-Authenticate" = Header.Get r2.Header "WWW-Authenticate")
    (ha : Header.Get r1.Header "Authorization" = Header.Get r2.Header "Authorization")
    (hp : Header.Get r1.Header "Proxy-Authorization" =
      Header.Get r2.Header "Proxy-Authorization") :
    (ServeHTTP (State.start log1) r1).wr.status = (ServeHTTP (State.start log2) r2).wr.status ∧
    (ServeHTTP (State.start log1) r1).wr.body = (ServeHTTP (State.start log2) r2).wr.body := by
  simp only [ServeHTTP, hasAuthHeader, State.start, State.logPrint, hs, hu, hm, hw, ha, hp]
  split_ifs <;> exact ⟨rfl, rfl⟩

theorem serveHTTP_depends_only_witness :
    reqPlain.URL.Scheme = reqPlainOther.URL.Scheme ∧
    reqPlain.URL.String = reqPlainOther.URL.String ∧
    reqPlain.Method = reqPlainOther.Method ∧
    reqPlain.RemoteAddr ≠ reqPlainOther.RemoteAddr ∧
    reqPlain.Header ≠ reqPlainOther.Header ∧
    ((ServeHTTP (State.start []) reqPlain).wr.status =
        (ServeHTTP (State.start ["earlier record"]) reqPlainOther).wr.status ∧
     (ServeHTTP (State.start []) reqPlain).wr.body =
        (ServeHTTP (State.start ["earlier record"]) reqPlainOther).wr.body) :=
  ⟨by decide, by decide, by decide, by decide, by decide,
    serveHTTP_depends_only [] ["earlier record"] reqPlain reqPlainOther (by decide)
      (by decide) (by decide) (by decide) (by decide) (by decide)⟩

/-! ## The whole body of `ServeHTTP` -/

/-- Every path through the classifier ends in a `return`: the whole body of `ServeHTTP`
does what its classifier does, and nothing else of the process changes. -/
theorem proxy_serveHTTP_eq (client : http.Client) (p : Process) (req : http.Request) :
    proxy.ServeHTTP client p req = { p with st := ServeHTTP p.st req } := by
  simp only [proxy.ServeHTTP, ServeHTTP, Flow.andThen, Flow.result, Process.logPrint,
    Process.onWriter]
  split_ifs <;> rfl

/-- C14: for every request and every upstream, `ServeHTTP` ends in its classifier with a
synthetic response of status 200, 400 or 404; the forwarding code is not reached: no
request is sent to an upstream, the process does not exit and the status is not 500. -/
theorem proxy_serveHTTP_never_forwards (client : http.Client) (log : List String)
    (req : http.Request) :
    (proxy.ServeHTTP client (Process.start log) req).outbound = [] ∧
    (proxy.ServeHTTP client (Process.start log) req).exitCode = none ∧
    (proxy.ServeHTTP client (Process.start log) req).st = ServeHTTP (State.start log) req ∧
    ((proxy.ServeHTTP client (Process.start log) req).st.wr.status = some 200 ∨
      (proxy.ServeHTTP client (Process.start log) req).st.wr.status = some 400 ∨
      (proxy.ServeHTTP client (Process.start log) req).st.wr.status = some 404) ∧
    (proxy.ServeHTTP client (Process.start log) req).st.wr.status ≠ some 500 := by
  rw [proxy_serveHTTP_eq]
  refine ⟨rfl, rfl, rfl, ?_⟩
  show ((ServeHTTP (State.start log) req).wr.status = some 200 ∨
      (ServeHTTP (State.start log) req).wr.status = some 400 ∨
      (ServeHTTP (State.start log) req).wr.status = some 404) ∧
    (ServeHTTP (State.start log) req).wr.status ≠ some 500
  obtain ⟨reason, code, body, _, hst, _, hc⟩ := serveHTTP_cases log req
  rw [hst]
  rcases hc with ⟨_, _, rfl, _⟩ | ⟨_, ⟨_, _, rfl, _⟩ | ⟨_, ⟨_, _, rfl, _⟩ |
      ⟨_, _, rfl, _⟩ | ⟨_, _, ⟨_, _, rfl, _⟩ | ⟨_, _, rfl, _⟩⟩⟩⟩ <;> simp

end GoProxy
